import Mathlib

/-!
Verification of `scripts/migrate_add_quota_and_ssh_keys.py` and
`scripts/generate_json_schema.py` (KohakuHub).

The migration script is embedded shallowly: each SQL statement the script
issues is transcribed as a structured `Stmt` value, the two dialect paths
(`migrate_postgres`, `migrate_sqlite`) are transcribed as step lists executed
by small interpreters that thread the database-schema state and record an
event trace (logger calls and issued statements), and the orchestrator
`migrate` dispatches on the configured backend string exactly as the source
does.  The database is abstracted by an executor `Exec`; `dbExec` is the
honest executor implementing the success/failure semantics of exactly the
statement forms the script issues.  The schema state models the slice of the
database the script touches: the `user`, `organization` and `sshkey` tables
and the index namespace.
-/

namespace KohakuHub

/-- A DEFAULT clause as written in the migration's DDL. -/
inductive SqlDefault where
  | null
  | intVal (n : Int)
  | currentTimestamp
  deriving DecidableEq, Repr

/-- One column definition as written in the migration's DDL.  `dflt` is the
DEFAULT clause (`none` means no DEFAULT clause was written). -/
structure ColumnDef where
  name : String
  sqlType : String
  primaryKey : Bool := false
  autoIncrement : Bool := false
  notNull : Bool := false
  unique : Bool := false
  dflt : Option SqlDefault := none
  deriving DecidableEq, Repr

/-- A SQL statement issued by the migration script. -/
inductive Stmt where
  /-- `ALTER TABLE t ADD COLUMN [IF NOT EXISTS] col`. -/
  | alterAddColumn (table : String) (ifNotExists : Bool) (col : ColumnDef)
  /-- `CREATE TABLE IF NOT EXISTS t (cols)`. -/
  | createTable (table : String) (cols : List ColumnDef)
  /-- `CREATE [UNIQUE] INDEX IF NOT EXISTS name ON table(cols)`. -/
  | createIndex (unique : Bool) (idxName : String) (table : String) (cols : List String)
  /-- `PRAGMA table_info(t)` — SQLite column-metadata introspection. -/
  | pragmaTableInfo (table : String)
  deriving DecidableEq, Repr

/-- An observable event of a run: the logger calls and the statements sent to
the database, in order. -/
inductive Event where
  | connect
  | info (msg : String)
  | success (msg : String)
  | warning (msg : String)
  | sql (stmt : Stmt)
  deriving DecidableEq, Repr

/-- The slice of database-schema state the script touches: the column lists of
the `user`, `organization` and `sshkey` tables (`none` = table absent) and the
set of existing index names. -/
structure DbSchema where
  userTable : Option (List String)
  orgTable : Option (List String)
  sshkeyTable : Option (List String)
  indexes : List String
  deriving DecidableEq, Repr

def DbSchema.getTable (s : DbSchema) : String → Option (List String)
  | "user" => s.userTable
  | "organization" => s.orgTable
  | "sshkey" => s.sshkeyTable
  | _ => none

def DbSchema.setTable (s : DbSchema) (t : String) (cols : List String) : DbSchema :=
  if t = "user" then { s with userTable := some cols }
  else if t = "organization" then { s with orgTable := some cols }
  else if t = "sshkey" then { s with sshkeyTable := some cols }
  else s

/-- Column names of a table as reported by introspection (`PRAGMA table_info`
reports no rows for an absent table). -/
def DbSchema.columnsOf (s : DbSchema) (t : String) : List String :=
  (s.getTable t).getD []

/-- A database statement executor: given the current schema and a statement,
either succeeds with the updated schema or fails with an error message. -/
abbrev Exec := DbSchema → Stmt → Except String DbSchema

/-- The honest executor: SQL success/failure semantics of the statement forms
the script issues.  An unguarded ADD COLUMN on a present column is a
duplicate-column error; a guarded one is a no-op; ADD COLUMN on an absent
table is an error; CREATE TABLE / CREATE INDEX always carry IF NOT EXISTS in
this script and so never fail. -/
def dbExec (s : DbSchema) : Stmt → Except String DbSchema
  | .alterAddColumn t ifne col =>
    match s.getTable t with
    | none => .error "no such table"
    | some cols =>
      if cols.contains col.name then
        if ifne then .ok s else .error "duplicate column name"
      else .ok (s.setTable t (cols ++ [col.name]))
  | .createTable t cols =>
    .ok (match s.getTable t with
         | some _ => s
         | none => s.setTable t (cols.map (fun c => c.name)))
  | .createIndex _ n _ _ =>
    .ok (if s.indexes.contains n then s else { s with indexes := s.indexes ++ [n] })
  | .pragmaTableInfo _ => .ok s

/-! ### The statements of `migrate_postgres` (Guarded dialect) -/

def pgUserPrivateQuota : Stmt :=
  .alterAddColumn "user" true { name := "private_quota_bytes", sqlType := "BIGINT", dflt := some .null }

def pgUserPublicQuota : Stmt :=
  .alterAddColumn "user" true { name := "public_quota_bytes", sqlType := "BIGINT", dflt := some .null }

def pgUserPrivateUsed : Stmt :=
  .alterAddColumn "user" true { name := "private_used_bytes", sqlType := "BIGINT", dflt := some (.intVal 0) }

def pgUserPublicUsed : Stmt :=
  .alterAddColumn "user" true { name := "public_used_bytes", sqlType := "BIGINT", dflt := some (.intVal 0) }

def pgOrgPrivateQuota : Stmt :=
  .alterAddColumn "organization" true { name := "private_quota_bytes", sqlType := "BIGINT", dflt := some .null }

def pgOrgPublicQuota : Stmt :=
  .alterAddColumn "organization" true { name := "public_quota_bytes", sqlType := "BIGINT", dflt := some .null }

def pgOrgPrivateUsed : Stmt :=
  .alterAddColumn "organization" true { name := "private_used_bytes", sqlType := "BIGINT", dflt := some (.intVal 0) }

def pgOrgPublicUsed : Stmt :=
  .alterAddColumn "organization" true { name := "public_used_bytes", sqlType := "BIGINT", dflt := some (.intVal 0) }

/-- Columns of the PostgreSQL `CREATE TABLE IF NOT EXISTS sshkey` statement.
`SERIAL PRIMARY KEY` is an auto-generated key, modelled with
`autoIncrement := true`. -/
def sshkeyColumnsPostgres : List ColumnDef := [
  { name := "id", sqlType := "SERIAL", primaryKey := true, autoIncrement := true },
  { name := "user_id", sqlType := "INTEGER", notNull := true },
  { name := "key_type", sqlType := "VARCHAR(255)", notNull := true },
  { name := "public_key", sqlType := "TEXT", notNull := true },
  { name := "fingerprint", sqlType := "VARCHAR(255)", notNull := true, unique := true },
  { name := "title", sqlType := "VARCHAR(255)", notNull := true },
  { name := "last_used", sqlType := "TIMESTAMP" },
  { name := "created_at", sqlType := "TIMESTAMP", notNull := true, dflt := some .currentTimestamp }]

def pgCreateSshkey : Stmt := .createTable "sshkey" sshkeyColumnsPostgres

/-- `CREATE INDEX IF NOT EXISTS sshkey_user_id ON sshkey(user_id)` — the same
SQL text in both dialect paths. -/
def idxUserId : Stmt := .createIndex false "sshkey_user_id" "sshkey" ["user_id"]

/-- `CREATE INDEX IF NOT EXISTS sshkey_fingerprint ON sshkey(fingerprint)`. -/
def idxFingerprint : Stmt := .createIndex false "sshkey_fingerprint" "sshkey" ["fingerprint"]

/-- `CREATE UNIQUE INDEX IF NOT EXISTS sshkey_user_fingerprint ON
sshkey(user_id, fingerprint)`. -/
def idxUserFingerprint : Stmt :=
  .createIndex true "sshkey_user_fingerprint" "sshkey" ["user_id", "fingerprint"]

/-! ### The Guarded (PostgreSQL) path -/

/-- One step of `migrate_postgres`: a logger.info call, or one
`try: execute; success except: warning` block.  On failure the logged warning
is `warnMsg` followed by the error text. -/
inductive PgStep where
  | info (msg : String)
  | tryDdl (stmt : Stmt) (okMsg warnMsg : String)
  deriving DecidableEq, Repr

def pgUserBlock : List PgStep := [
  .info "Adding quota columns to User table...",
  .tryDdl pgUserPrivateQuota "Added private_quota_bytes to User"
    "Column private_quota_bytes might already exist: ",
  .tryDdl pgUserPublicQuota "Added public_quota_bytes to User"
    "Column public_quota_bytes might already exist: ",
  .tryDdl pgUserPrivateUsed "Added private_used_bytes to User"
    "Column private_used_bytes might already exist: ",
  .tryDdl pgUserPublicUsed "Added public_used_bytes to User"
    "Column public_used_bytes might already exist: "]

def pgOrgBlock : List PgStep := [
  .info "Adding quota columns to Organization table...",
  .tryDdl pgOrgPrivateQuota "Added private_quota_bytes to Organization"
    "Column private_quota_bytes might already exist: ",
  .tryDdl pgOrgPublicQuota "Added public_quota_bytes to Organization"
    "Column public_quota_bytes might already exist: ",
  .tryDdl pgOrgPrivateUsed "Added private_used_bytes to Organization"
    "Column private_used_bytes might already exist: ",
  .tryDdl pgOrgPublicUsed "Added public_used_bytes to Organization"
    "Column public_used_bytes might already exist: "]

def pgTableBlock : List PgStep := [
  .info "Creating SSHKey table...",
  .tryDdl pgCreateSshkey "Created SSHKey table" "SSHKey table might already exist: ",
  .tryDdl idxUserId "Created index on sshkey.user_id" "Index might already exist: ",
  .tryDdl idxFingerprint "Created index on sshkey.fingerprint" "Index might already exist: ",
  .tryDdl idxUserFingerprint "Created unique index on sshkey(user_id, fingerprint)"
    "Index might already exist: "]

/-- The statement/log sequence of `migrate_postgres`, in source order. -/
def pgProgram : List PgStep := pgUserBlock ++ pgOrgBlock ++ pgTableBlock

structure PgState where
  schema : DbSchema
  trace : List Event
  deriving DecidableEq, Repr

/-- One `try: db.execute_sql(stmt); logger.success(okMsg) except Exception as
e: logger.warning(warnMsg + e)` block. -/
def tryStep (exec : Exec) (st : PgState) (stmt : Stmt) (okMsg warnMsg : String) : PgState :=
  match exec st.schema stmt with
  | .ok s2 => { schema := s2, trace := st.trace ++ [.sql stmt, .success okMsg] }
  | .error e => { schema := st.schema, trace := st.trace ++ [.sql stmt, .warning (warnMsg ++ e)] }

def runPg (exec : Exec) : List PgStep → PgState → PgState
  | [], st => st
  | .info m :: rest, st => runPg exec rest { st with trace := st.trace ++ [.info m] }
  | .tryDdl stmt ok w :: rest, st => runPg exec rest (tryStep exec st stmt ok w)

/-- `migrate_postgres()` of the source, over an arbitrary executor. -/
def migrate_postgres (exec : Exec) (st : PgState) : PgState :=
  runPg exec pgProgram st

/-! ### The Unguarded (SQLite) path -/

def sqUserPrivateQuota : Stmt :=
  .alterAddColumn "user" false { name := "private_quota_bytes", sqlType := "INTEGER", dflt := some .null }

def sqUserPublicQuota : Stmt :=
  .alterAddColumn "user" false { name := "public_quota_bytes", sqlType := "INTEGER", dflt := some .null }

def sqUserPrivateUsed : Stmt :=
  .alterAddColumn "user" false { name := "private_used_bytes", sqlType := "INTEGER", dflt := some (.intVal 0) }

def sqUserPublicUsed : Stmt :=
  .alterAddColumn "user" false { name := "public_used_bytes", sqlType := "INTEGER", dflt := some (.intVal 0) }

def sqOrgPrivateQuota : Stmt :=
  .alterAddColumn "organization" false { name := "private_quota_bytes", sqlType := "INTEGER", dflt := some .null }

def sqOrgPublicQuota : Stmt :=
  .alterAddColumn "organization" false { name := "public_quota_bytes", sqlType := "INTEGER", dflt := some .null }

def sqOrgPrivateUsed : Stmt :=
  .alterAddColumn "organization" false { name := "private_used_bytes", sqlType := "INTEGER", dflt := some (.intVal 0) }

def sqOrgPublicUsed : Stmt :=
  .alterAddColumn "organization" false { name := "public_used_bytes", sqlType := "INTEGER", dflt := some (.intVal 0) }

/-- Columns of the SQLite `CREATE TABLE IF NOT EXISTS sshkey` statement —
identical to the PostgreSQL one except for the primary-key syntax
(`INTEGER PRIMARY KEY AUTOINCREMENT`). -/
def sshkeyColumnsSqlite : List ColumnDef := [
  { name := "id", sqlType := "INTEGER", primaryKey := true, autoIncrement := true },
  { name := "user_id", sqlType := "INTEGER", notNull := true },
  { name := "key_type", sqlType := "VARCHAR(255)", notNull := true },
  { name := "public_key", sqlType := "TEXT", notNull := true },
  { name := "fingerprint", sqlType := "VARCHAR(255)", notNull := true, unique := true },
  { name := "title", sqlType := "VARCHAR(255)", notNull := true },
  { name := "last_used", sqlType := "TIMESTAMP" },
  { name := "created_at", sqlType := "TIMESTAMP", notNull := true, dflt := some .currentTimestamp }]

def sqCreateSshkey : Stmt := .createTable "sshkey" sshkeyColumnsSqlite

/-- One step of `migrate_sqlite`: a logger.info call; an introspection binding
`existing_columns = {row[1] for row in db.execute_sql(PRAGMA).fetchall()}`; a
conditional column addition `if c not in existing_columns: info; execute;
success`; an unconditional statement execution; or a logger.success call.
The SQLite path has no try/except: a statement failure is fatal. -/
inductive SqStep where
  | info (msg : String)
  | introspectCols (table : String)
  | condAdd (colName : String) (stmt : Stmt) (infoMsg okMsg : String)
  | rawDdl (stmt : Stmt)
  | successLog (msg : String)
  deriving DecidableEq, Repr

/-- State of a `migrate_sqlite` run: the schema, the most recent introspected
existing-column set, the trace so far, and the fatal error (if one was
raised — the source has no handler, so it propagates). -/
structure SqState where
  schema : DbSchema
  existing : List String
  trace : List Event
  err : Option String
  deriving DecidableEq, Repr

def sqStep (exec : Exec) (st : SqState) : SqStep → SqState
  | .info m => { st with trace := st.trace ++ [.info m] }
  | .introspectCols t =>
      { st with existing := st.schema.columnsOf t,
                trace := st.trace ++ [.sql (.pragmaTableInfo t)] }
  | .condAdd c stmt im ok =>
      if st.existing.contains c then st
      else
        match exec st.schema stmt with
        | .ok s2 => { st with schema := s2, trace := st.trace ++ [.info im, .sql stmt, .success ok] }
        | .error e => { st with trace := st.trace ++ [.info im, .sql stmt], err := some e }
  | .rawDdl stmt =>
      match exec st.schema stmt with
      | .ok s2 => { st with schema := s2, trace := st.trace ++ [.sql stmt] }
      | .error e => { st with trace := st.trace ++ [.sql stmt], err := some e }
  | .successLog m => { st with trace := st.trace ++ [.success m] }

/-- A raised error aborts the rest of the step list. -/
def runSq (exec : Exec) : List SqStep → SqState → SqState
  | [], st => st
  | step :: rest, st =>
      if st.err.isSome then st else runSq exec rest (sqStep exec st step)

def sqUserBlock : List SqStep := [
  .info "Checking User table schema...",
  .introspectCols "user",
  .condAdd "private_quota_bytes" sqUserPrivateQuota
    "Adding private_quota_bytes to User..." "Added private_quota_bytes",
  .condAdd "public_quota_bytes" sqUserPublicQuota
    "Adding public_quota_bytes to User..." "Added public_quota_bytes",
  .condAdd "private_used_bytes" sqUserPrivateUsed
    "Adding private_used_bytes to User..." "Added private_used_bytes",
  .condAdd "public_used_bytes" sqUserPublicUsed
    "Adding public_used_bytes to User..." "Added public_used_bytes"]

def sqOrgBlock : List SqStep := [
  .info "Checking Organization table schema...",
  .introspectCols "organization",
  .condAdd "private_quota_bytes" sqOrgPrivateQuota
    "Adding private_quota_bytes to Organization..." "Added private_quota_bytes",
  .condAdd "public_quota_bytes" sqOrgPublicQuota
    "Adding public_quota_bytes to Organization..." "Added public_quota_bytes",
  .condAdd "private_used_bytes" sqOrgPrivateUsed
    "Adding private_used_bytes to Organization..." "Added private_used_bytes",
  .condAdd "public_used_bytes" sqOrgPublicUsed
    "Adding public_used_bytes to Organization..." "Added public_used_bytes"]

def sqTableBlock : List SqStep := [
  .info "Creating SSHKey table...",
  .rawDdl sqCreateSshkey,
  .successLog "Created SSHKey table",
  .rawDdl idxUserId,
  .rawDdl idxFingerprint,
  .rawDdl idxUserFingerprint,
  .successLog "Created indexes on SSHKey table"]

/-- The statement/log sequence of `migrate_sqlite`, in source order. -/
def sqProgram : List SqStep := sqUserBlock ++ sqOrgBlock ++ sqTableBlock

/-- `migrate_sqlite()` of the source, over an arbitrary executor. -/
def migrate_sqlite (exec : Exec) (st : SqState) : SqState :=
  runSq exec sqProgram st

/-! ### The orchestrator `migrate()` -/

/-- Result of a full run: final schema, full event trace, and the fatal error
if the run halted before completion. -/
structure RunResult where
  schema : DbSchema
  trace : List Event
  err : Option String
  deriving DecidableEq, Repr

/-- State at entry of `migrate_postgres`: the events logged before the
strategy runs are the connect, the start info, and the detected-backend
info. -/
def pgInit (s : DbSchema) : PgState :=
  { schema := s,
    trace := [.connect, .info "Starting database migration...",
              .info "Detected PostgreSQL database"] }

/-- State at entry of `migrate_sqlite`. -/
def sqInit (s : DbSchema) : SqState :=
  { schema := s, existing := [],
    trace := [.connect, .info "Starting database migration...",
              .info "Detected SQLite database"],
    err := none }

/-- `migrate()` of the source: connect (reuse if open), log the start, read
the configured backend kind, dispatch to the dialect strategy, and log the
final success — which is skipped when a fatal error propagated out of the
strategy (only the SQLite path can raise one; every PostgreSQL statement is
wrapped in try/except). -/
def migrate (exec : Exec) (db_backend : String) (s : DbSchema) : RunResult :=
  if db_backend = "postgres" then
    let p := migrate_postgres exec (pgInit s)
    { schema := p.schema,
      trace := p.trace ++ [.success "Migration completed successfully!"],
      err := none }
  else
    let q := migrate_sqlite exec (sqInit s)
    match q.err with
    | none => { schema := q.schema,
                trace := q.trace ++ [.success "Migration completed successfully!"],
                err := none }
    | some e => { schema := q.schema, trace := q.trace, err := some e }

/-! ### Derived definitions used to state and prove the claims -/

/-- Result of one honest-executor run, as used by the idempotence claim. -/
def runOnce (db_backend : String) (s : DbSchema) : RunResult :=
  migrate dbExec db_backend s

/-- A second honest-executor run on the schema the first run left behind. -/
def runTwice (db_backend : String) (s : DbSchema) : RunResult :=
  migrate dbExec db_backend (runOnce db_backend s).schema

/-- Append `c` to `acc` unless it is already present — the net effect of one
idempotent column/index addition. -/
def ensureCol (acc : List String) (c : String) : List String :=
  if acc.contains c then acc else acc ++ [c]

/-- Net effect of the four quota-column additions on one table's column
list. -/
def ensureQuota (cols : List String) : List String :=
  ensureCol (ensureCol (ensureCol (ensureCol cols
    "private_quota_bytes") "public_quota_bytes") "private_used_bytes") "public_used_bytes"

/-- The column names of the `sshkey` table, in declaration order (identical in
both dialects). -/
def sshkeyColNames : List String :=
  ["id", "user_id", "key_type", "public_key", "fingerprint", "title", "last_used", "created_at"]

/-- Net effect of `CREATE TABLE IF NOT EXISTS sshkey (...)` on the schema. -/
def ensureSshkeyTable (s : DbSchema) : DbSchema :=
  match s.sshkeyTable with
  | some _ => s
  | none => { s with sshkeyTable := some sshkeyColNames }

/-- Net effect of the three `CREATE [UNIQUE] INDEX IF NOT EXISTS`
statements. -/
def ensureIndexes (s : DbSchema) : DbSchema :=
  { s with indexes := ensureCol (ensureCol (ensureCol s.indexes
      "sshkey_user_id") "sshkey_fingerprint") "sshkey_user_fingerprint" }

/-- Net effect of the whole table/index block. -/
def ensureSshkey (s : DbSchema) : DbSchema :=
  ensureIndexes (ensureSshkeyTable s)

/-- Net effect of the quota-column additions on both entity tables (a missing
table is left missing). -/
def ensureQuotaTables (s : DbSchema) : DbSchema :=
  { s with userTable := Option.map ensureQuota s.userTable,
           orgTable := Option.map ensureQuota s.orgTable }

/-- Events one `SqStep` can contribute to the trace. -/
def sqStepEvent : SqStep → Event → Prop
  | .info m, e => e = .info m
  | .introspectCols t, e => e = .sql (.pragmaTableInfo t)
  | .condAdd _ stmt im ok, e => e = .info im ∨ e = .sql stmt ∨ e = .success ok
  | .rawDdl stmt, e => e = .sql stmt
  | .successLog m, e => e = .success m

/-- Events one `PgStep` can contribute to the trace. -/
def pgStepEvent : PgStep → Event → Prop
  | .info m, e => e = .info m
  | .tryDdl stmt ok w, e => e = .sql stmt ∨ e = .success ok ∨ ∃ s, e = .warning (w ++ s)

/-- The DDL statement a `SqStep` hands to the executor, if any. -/
def SqStep.ddlStmt : SqStep → Option Stmt
  | .condAdd _ stmt _ _ => some stmt
  | .rawDdl stmt => some stmt
  | _ => none

/-- A step list is well formed when no executor-bound statement is a PRAGMA
(introspection is the separate `introspectCols` step). -/
def sqProgWf (prog : List SqStep) : Bool :=
  prog.all (fun step =>
    match step.ddlStmt with
    | some (.pragmaTableInfo _) => false
    | _ => true)

/-- Replaying one traced event against an executor: issued statements are
re-executed (a failed statement leaves the schema unchanged), introspection
and log events do not touch the schema. -/
def replayEvent (exec : Exec) (s : DbSchema) : Event → DbSchema
  | .sql (.pragmaTableInfo _) => s
  | .sql stmt =>
    (match exec s stmt with
     | .ok s2 => s2
     | .error _ => s)
  | _ => s

/-- Replaying a trace: the schema is exactly the accumulated effect of the
successfully executed statements, in order — no rollback. -/
def replay (exec : Exec) (s : DbSchema) (tr : List Event) : DbSchema :=
  tr.foldl (replayEvent exec) s

/-- Scan of a trace checking that every column-addition DDL statement on a
table is preceded by an introspection query of that same table.  `seen` is the
set of tables introspected so far. -/
def alterScan : List String → List Event → Bool
  | _, [] => true
  | seen, .sql (.pragmaTableInfo t) :: rest => alterScan (t :: seen) rest
  | seen, .sql (.alterAddColumn t _ _) :: rest => seen.contains t && alterScan seen rest
  | seen, _ :: rest => alterScan seen rest

/-- Tables introspected by a trace, added to `seen`. -/
def seenAfter : List String → List Event → List String
  | seen, [] => seen
  | seen, .sql (.pragmaTableInfo t) :: rest => seenAfter (t :: seen) rest
  | seen, _ :: rest => seenAfter seen rest

/-- A step list only adds columns to tables already introspected (given the
tables in `seen`), and never hands a PRAGMA to the executor. -/
def sqProgScanOk : List String → List SqStep → Bool
  | _, [] => true
  | seen, .introspectCols t :: rest => sqProgScanOk (t :: seen) rest
  | seen, .condAdd _ stmt _ _ :: rest =>
      (match stmt with
       | .alterAddColumn t _ _ => seen.contains t
       | .pragmaTableInfo _ => false
       | _ => true) && sqProgScanOk seen rest
  | seen, .rawDdl stmt :: rest =>
      (match stmt with
       | .alterAddColumn t _ _ => seen.contains t
       | .pragmaTableInfo _ => false
       | _ => true) && sqProgScanOk seen rest
  | seen, _ :: rest => sqProgScanOk seen rest

/-- Whether an event is a schema-introspection query. -/
def isIntrospection : Event → Bool
  | .sql (.pragmaTableInfo _) => true
  | _ => false

/-- The net schema effect of one guarded try-block under the honest executor
(a failure leaves the schema unchanged). -/
def applyOk (exec : Exec) (s : DbSchema) (stmt : Stmt) : DbSchema :=
  match exec s stmt with
  | .ok s2 => s2
  | .error _ => s

/-- Trace of one conditional SQLite column addition. -/
def condAddTrace (present : Bool) (stmt : Stmt) (im ok : String) : List Event :=
  if present then [] else [.info im, .sql stmt, .success ok]

/-- Trace of the SQLite User quota block when the `user` table has columns
`cols`. -/
def userBlockTrace (cols : List String) : List Event :=
  [.info "Checking User table schema...", .sql (.pragmaTableInfo "user")]
  ++ condAddTrace (cols.contains "private_quota_bytes") sqUserPrivateQuota
      "Adding private_quota_bytes to User..." "Added private_quota_bytes"
  ++ condAddTrace (cols.contains "public_quota_bytes") sqUserPublicQuota
      "Adding public_quota_bytes to User..." "Added public_quota_bytes"
  ++ condAddTrace (cols.contains "private_used_bytes") sqUserPrivateUsed
      "Adding private_used_bytes to User..." "Added private_used_bytes"
  ++ condAddTrace (cols.contains "public_used_bytes") sqUserPublicUsed
      "Adding public_used_bytes to User..." "Added public_used_bytes"

/-- Trace of the SQLite Organization quota block when the `organization` table
has columns `cols`. -/
def orgBlockTrace (cols : List String) : List Event :=
  [.info "Checking Organization table schema...", .sql (.pragmaTableInfo "organization")]
  ++ condAddTrace (cols.contains "private_quota_bytes") sqOrgPrivateQuota
      "Adding private_quota_bytes to Organization..." "Added private_quota_bytes"
  ++ condAddTrace (cols.contains "public_quota_bytes") sqOrgPublicQuota
      "Adding public_quota_bytes to Organization..." "Added public_quota_bytes"
  ++ condAddTrace (cols.contains "private_used_bytes") sqOrgPrivateUsed
      "Adding private_used_bytes to Organization..." "Added private_used_bytes"
  ++ condAddTrace (cols.contains "public_used_bytes") sqOrgPublicUsed
      "Adding public_used_bytes to Organization..." "Added public_used_bytes"

/-- Trace of the SQLite table/index block (the same on every schema, since
those statements all carry IF NOT EXISTS and are issued unconditionally). -/
def tableBlockTrace : List Event :=
  [.info "Creating SSHKey table...", .sql sqCreateSshkey, .success "Created SSHKey table",
   .sql idxUserId, .sql idxFingerprint, .sql idxUserFingerprint,
   .success "Created indexes on SSHKey table"]

/-- No executor-bound statement of a Guarded step is a PRAGMA. -/
def pgStepNoPragma : PgStep → Bool
  | .tryDdl (.pragmaTableInfo _) _ _ => false
  | _ => true

/-- Every column-addition statement of a Guarded step carries the declarative
IF NOT EXISTS guard. -/
def pgStepGuardedAlter : PgStep → Bool
  | .tryDdl (.alterAddColumn _ g _) _ _ => g
  | _ => true

/-- No success message logged by a Guarded step is the orchestrator's final
success message. -/
def pgStepNoFinalMsg : PgStep → Bool
  | .tryDdl _ ok _ => ok != "Migration completed successfully!"
  | .info _ => true

/-- No success message logged by an Unguarded step is the orchestrator's final
success message. -/
def sqStepNoFinalMsg : SqStep → Bool
  | .condAdd _ _ _ ok => ok != "Migration completed successfully!"
  | .successLog m => m != "Migration completed successfully!"
  | _ => true

/-! ### Concrete fixtures used by witnesses and counterexamples -/

/-- A plausible pre-migration schema: `user` and `organization` exist with no
quota columns, no `sshkey` table, no indexes. -/
def exampleSchema : DbSchema :=
  { userTable := some ["id", "username"],
    orgTable := some ["id", "name"],
    sshkeyTable := none,
    indexes := [] }

/-- An executor that behaves honestly except that the unguarded addition of
`public_quota_bytes` to `user` fails (e.g. a race or unexpected backend
error, after the absence check already passed). -/
def failSqSecond : Exec := fun s stmt =>
  if stmt = sqUserPublicQuota then .error "simulated backend failure"
  else dbExec s stmt

/-- An executor that behaves honestly except that the second of the four
guarded column additions for `user` fails. -/
def failPgSecond : Exec := fun s stmt =>
  if stmt = pgUserPublicQuota then .error "simulated failure"
  else dbExec s stmt

/-- An executor on which every single statement fails. -/
def failAll : Exec := fun _ _ => .error "backend down"

/-- The executor-bound statements of the Guarded program, in order (each one
sits in its own try/except block in the source). -/
def stmtsOfPg : List Stmt :=
  pgProgram.filterMap (fun step =>
    match step with
    | .tryDdl stmt _ _ => some stmt
    | _ => none)

/-- The executor-bound statements of the Unguarded program, in order. -/
def stmtsOfSq : List Stmt :=
  sqProgram.filterMap SqStep.ddlStmt

def isCreateIndexStmt : Stmt → Bool
  | .createIndex _ _ _ _ => true
  | _ => false

/-- The (column name, SQL type, DEFAULT clause) specification of a
column-addition statement. -/
def alterSpec : Stmt → Option (String × String × Option SqlDefault)
  | .alterAddColumn _ _ col => some (col.name, col.sqlType, col.dflt)
  | _ => none

/-- The column-addition statements among `stmts` that target table `t`. -/
def altersOn (stmts : List Stmt) (t : String) : List Stmt :=
  stmts.filter (fun stmt =>
    match stmt with
    | .alterAddColumn t2 _ _ => t2 == t
    | _ => false)

/-- The shape the spec ascribes to the credential-key table, with the
corrected column count of eight: a generated primary key, an owner reference,
a key-type string, public-key text, a globally-unique fingerprint, a title, a
nullable last-used timestamp, and a creation timestamp defaulting to the
current time. -/
def sshkeyShape (cols : List ColumnDef) : Bool :=
  match cols with
  | [c1, c2, c3, c4, c5, c6, c7, c8] =>
    (c1.name == "id" && c1.primaryKey && c1.autoIncrement) &&
    (c2.name == "user_id" && c2.notNull) &&
    (c3.name == "key_type" && c3.notNull) &&
    (c4.name == "public_key" && c4.notNull) &&
    (c5.name == "fingerprint" && c5.notNull && c5.unique) &&
    (c6.name == "title" && c6.notNull) &&
    (c7.name == "last_used" && !c7.notNull && c7.dflt == none) &&
    (c8.name == "created_at" && c8.notNull && c8.dflt == some SqlDefault.currentTimestamp)
  | _ => false

/-! ### The JSON-schema export utility -/

/-- `move_defs_to_end` of `scripts/generate_json_schema.py`: if the schema
dictionary has a `"$defs"` key, pop it and re-assign it, which re-inserts it
at the end; otherwise return the dictionary unchanged.  A Python dict is
modelled as an ordered key-value list with unique keys; `pop` of the unique
`"$defs"` entry is the filter dropping that key. -/
def move_defs_to_end {α : Type} (schema : List (String × α)) : List (String × α) :=
  match schema.lookup "$defs" with
  | some defs => (schema.filter (fun kv => kv.1 != "$defs")) ++ [("$defs", defs)]
  | none => schema

/-- A concrete dictionary for the C10 witness. -/
def exampleJsonSchema : List (String × Nat) :=
  [("title", 1), ("$defs", 2), ("type", 3)]

/-! ### Infrastructure lemmas: `ensureCol` -/

theorem ensureCol_contains_self (acc : List String) (c : String) :
    (ensureCol acc c).contains c = true := by
  unfold ensureCol
  by_cases h : acc.contains c <;> simp_all

theorem ensureCol_contains_mono (acc : List String) (c a : String)
    (h : acc.contains a = true) : (ensureCol acc c).contains a = true := by
  unfold ensureCol
  by_cases hc : acc.contains c <;> simp_all

theorem ensureCol_of_contains {acc : List String} {c : String}
    (h : acc.contains c = true) : ensureCol acc c = acc := by
  have h2 : c ∈ acc := by simpa using h
  simp [ensureCol, h2]

theorem ensureQuota_contains (cols : List String) :
    (ensureQuota cols).contains "private_quota_bytes" = true
  ∧ (ensureQuota cols).contains "public_quota_bytes" = true
  ∧ (ensureQuota cols).contains "private_used_bytes" = true
  ∧ (ensureQuota cols).contains "public_used_bytes" = true := by
  unfold ensureQuota
  refine ⟨?_, ?_, ?_, ?_⟩
  · exact ensureCol_contains_mono _ _ _ (ensureCol_contains_mono _ _ _
      (ensureCol_contains_mono _ _ _ (ensureCol_contains_self _ _)))
  · exact ensureCol_contains_mono _ _ _ (ensureCol_contains_mono _ _ _
      (ensureCol_contains_self _ _))
  · exact ensureCol_contains_mono _ _ _ (ensureCol_contains_self _ _)
  · exact ensureCol_contains_self _ _

theorem ensureQuota_of_complete {cols : List String}
    (h1 : cols.contains "private_quota_bytes" = true)
    (h2 : cols.contains "public_quota_bytes" = true)
    (h3 : cols.contains "private_used_bytes" = true)
    (h4 : cols.contains "public_used_bytes" = true) :
    ensureQuota cols = cols := by
  unfold ensureQuota
  rw [ensureCol_of_contains h1, ensureCol_of_contains h2,
      ensureCol_of_contains h3, ensureCol_of_contains h4]

theorem ensureQuota_idem (cols : List String) :
    ensureQuota (ensureQuota cols) = ensureQuota cols := by
  obtain ⟨h1, h2, h3, h4⟩ := ensureQuota_contains cols
  exact ensureQuota_of_complete h1 h2 h3 h4

/-! ### Infrastructure lemmas: `runSq` -/

theorem runSq_of_err {exec : Exec} {st : SqState} (prog : List SqStep)
    (h : st.err.isSome) : runSq exec prog st = st := by
  cases prog with
  | nil => rfl
  | cons a rest => simp [runSq, h]

theorem runSq_append (exec : Exec) (A B : List SqStep) (st : SqState) :
    runSq exec (A ++ B) st = runSq exec B (runSq exec A st) := by
  induction A generalizing st with
  | nil => rfl
  | cons a rest ih =>
    by_cases h : st.err.isSome
    · simp [runSq, h, runSq_of_err B h]
    · simp [runSq, h, ih]

/-- Effect of one step on the trace and the schema: the trace only grows, by
events attributable to that step, and the schema moves by replaying exactly
the appended events. -/
theorem sqStep_run (exec : Exec) (st : SqState) (step : SqStep)
    (hwf : (match step.ddlStmt with
            | some (.pragmaTableInfo _) => false
            | _ => true) = true) :
    ∃ d, (sqStep exec st step).trace = st.trace ++ d
      ∧ (sqStep exec st step).schema = replay exec st.schema d
      ∧ (∀ e ∈ d, sqStepEvent step e)
      ∧ ((sqStep exec st step).err = st.err ∨
          ((sqStep exec st step).err ≠ none ∧ ∃ pre stmt, d = pre ++ [.sql stmt])) := by
  cases step with
  | info m =>
    exact ⟨[.info m], rfl, rfl, by simp [sqStepEvent], Or.inl rfl⟩
  | introspectCols t =>
    exact ⟨[.sql (.pragmaTableInfo t)], rfl, rfl, by simp [sqStepEvent],
      Or.inl rfl⟩
  | successLog m =>
    exact ⟨[.success m], rfl, rfl, by simp [sqStepEvent], Or.inl rfl⟩
  | condAdd c stmt im ok =>
    by_cases hc : c ∈ st.existing
    · exact ⟨[], by simp [sqStep, hc], by simp [sqStep, hc, replay], by simp,
        Or.inl (by simp [sqStep, hc])⟩
    · cases hx : exec st.schema stmt with
      | ok s2 =>
        refine ⟨[.info im, .sql stmt, .success ok], by simp [sqStep, hc, hx],
          ?_, by simp [sqStepEvent], Or.inl (by simp [sqStep, hc, hx])⟩
        cases stmt with
        | pragmaTableInfo t => simp [SqStep.ddlStmt] at hwf
        | alterAddColumn t g col => simp [sqStep, hc, hx, replay, replayEvent]
        | createTable t cols => simp [sqStep, hc, hx, replay, replayEvent]
        | createIndex u n t cols => simp [sqStep, hc, hx, replay, replayEvent]
      | error e =>
        refine ⟨[.info im, .sql stmt], by simp [sqStep, hc, hx], ?_,
          by simp [sqStepEvent],
          Or.inr ⟨by simp [sqStep, hc, hx], [.info im], stmt, rfl⟩⟩
        cases stmt with
        | pragmaTableInfo t => simp [SqStep.ddlStmt] at hwf
        | alterAddColumn t g col => simp [sqStep, hc, hx, replay, replayEvent]
        | createTable t cols => simp [sqStep, hc, hx, replay, replayEvent]
        | createIndex u n t cols => simp [sqStep, hc, hx, replay, replayEvent]
  | rawDdl stmt =>
    cases hx : exec st.schema stmt with
    | ok s2 =>
      refine ⟨[.sql stmt], by simp [sqStep, hx], ?_, by simp [sqStepEvent],
        Or.inl (by simp [sqStep, hx])⟩
      cases stmt with
      | pragmaTableInfo t => simp [SqStep.ddlStmt] at hwf
      | alterAddColumn t g col => simp [sqStep, hx, replay, replayEvent]
      | createTable t cols => simp [sqStep, hx, replay, replayEvent]
      | createIndex u n t cols => simp [sqStep, hx, replay, replayEvent]
    | error e =>
      refine ⟨[.sql stmt], by simp [sqStep, hx], ?_, by simp [sqStepEvent],
        Or.inr ⟨by simp [sqStep, hx], [], stmt, rfl⟩⟩
      cases stmt with
      | pragmaTableInfo t => simp [SqStep.ddlStmt] at hwf
      | alterAddColumn t g col => simp [sqStep, hx, replay, replayEvent]
      | createTable t cols => simp [sqStep, hx, replay, replayEvent]
      | createIndex u n t cols => simp [sqStep, hx, replay, replayEvent]

theorem replay_append (exec : Exec) (s : DbSchema) (t1 t2 : List Event) :
    replay exec s (t1 ++ t2) = replay exec (replay exec s t1) t2 := by
  simp [replay, List.foldl_append]

/-- Master lemma for a SQLite-path run over an arbitrary executor: the trace
grows by events of the program's steps, the final schema is the replay of the
appended events (completed steps' effects remain, nothing is rolled back), and
if the run ends in a fatal error the appended trace ends at the failing
statement (no subsequent step executed). -/
theorem runSq_run (exec : Exec) (prog : List SqStep) (st : SqState)
    (h : st.err = none) (hwf : sqProgWf prog = true) :
    ∃ ext, (runSq exec prog st).trace = st.trace ++ ext
      ∧ (runSq exec prog st).schema = replay exec st.schema ext
      ∧ (∀ e ∈ ext, ∃ step ∈ prog, sqStepEvent step e)
      ∧ ((runSq exec prog st).err ≠ none → ∃ pre stmt, ext = pre ++ [.sql stmt]) := by
  induction prog generalizing st with
  | nil =>
    refine ⟨[], by simp [runSq], by simp [runSq, replay], by simp, ?_⟩
    intro hne
    simp [runSq, h] at hne
  | cons a rest ih =>
    have hna : st.err.isSome = false := by simp [h]
    have hstep : runSq exec (a :: rest) st = runSq exec rest (sqStep exec st a) := by
      simp [runSq, hna]
    have hwa : (match a.ddlStmt with
                | some (.pragmaTableInfo _) => false
                | _ => true) = true := by
      simp only [sqProgWf, List.all_cons, Bool.and_eq_true] at hwf
      exact hwf.1
    have hwrest : sqProgWf rest = true := by
      simp only [sqProgWf, List.all_cons, Bool.and_eq_true] at hwf
      exact hwf.2
    obtain ⟨d, hd, hds, hde, hderr⟩ := sqStep_run exec st a hwa
    cases hda : (sqStep exec st a).err with
    | none =>
      obtain ⟨ext2, h2, h2s, h2e, h2err⟩ := ih (sqStep exec st a) hda hwrest
      refine ⟨d ++ ext2, ?_, ?_, ?_, ?_⟩
      · rw [hstep, h2, hd, List.append_assoc]
      · rw [hstep, h2s, hds, replay_append]
      · intro e he
        rcases List.mem_append.1 he with he | he
        · exact ⟨a, List.mem_cons_self a rest, hde e he⟩
        · obtain ⟨step, hstep2, hev⟩ := h2e e he
          exact ⟨step, List.mem_cons_of_mem a hstep2, hev⟩
      · intro hne
        rw [hstep] at hne
        obtain ⟨pre, stmt, hps⟩ := h2err hne
        exact ⟨d ++ pre, stmt, by rw [hps, List.append_assoc]⟩
    | some e0 =>
      have hstop : runSq exec rest (sqStep exec st a) = sqStep exec st a :=
        runSq_of_err rest (by simp [hda])
      rcases hderr with hsame | ⟨_, pre, stmt, hps⟩
      · rw [h] at hsame
        rw [hsame] at hda
        exact absurd hda (by simp)
      · refine ⟨d, ?_, ?_, ?_, ?_⟩
        · rw [hstep, hstop, hd]
        · rw [hstep, hstop, hds]
        · intro e he
          exact ⟨a, List.mem_cons_self a rest, hde e he⟩
        · intro _
          exact ⟨pre, stmt, hps⟩

/-! ### Infrastructure lemmas: `runPg` -/

theorem runPg_append (exec : Exec) (A B : List PgStep) (st : PgState) :
    runPg exec (A ++ B) st = runPg exec B (runPg exec A st) := by
  induction A generalizing st with
  | nil => rfl
  | cons a rest ih =>
    cases a with
    | info m => simp [runPg, ih]
    | tryDdl stmt ok w => simp [runPg, ih]

theorem tryStep_schema (exec : Exec) (st : PgState) (stmt : Stmt) (ok w : String) :
    (tryStep exec st stmt ok w).schema = applyOk exec st.schema stmt := by
  unfold tryStep applyOk
  cases exec st.schema stmt <;> rfl

theorem tryStep_trace (exec : Exec) (st : PgState) (stmt : Stmt) (ok w : String) :
    ∃ d, (tryStep exec st stmt ok w).trace = st.trace ++ d
      ∧ (∀ e ∈ d, pgStepEvent (.tryDdl stmt ok w) e)
      ∧ Event.sql stmt ∈ d := by
  unfold tryStep
  cases hx : exec st.schema stmt with
  | ok s2 =>
    exact ⟨[.sql stmt, .success ok], rfl, by simp [pgStepEvent], by simp⟩
  | error e =>
    refine ⟨[.sql stmt, .warning (w ++ e)], rfl, ?_, by simp⟩
    intro ev hev
    simp at hev
    rcases hev with hev | hev
    · exact Or.inl hev
    · exact Or.inr (Or.inr ⟨e, hev⟩)

/-- Master lemma for a Guarded-path run over an arbitrary executor: the trace
only grows, by events attributable to the program's steps, and every
executor-bound statement of the program is issued (appears in the trace)
regardless of which statements fail. -/
theorem runPg_run (exec : Exec) (prog : List PgStep) (st : PgState) :
    ∃ ext, (runPg exec prog st).trace = st.trace ++ ext
      ∧ (∀ e ∈ ext, ∃ step ∈ prog, pgStepEvent step e)
      ∧ (∀ stmt ok w, PgStep.tryDdl stmt ok w ∈ prog → Event.sql stmt ∈ ext) := by
  induction prog generalizing st with
  | nil =>
    refine ⟨[], by simp [runPg], by simp, ?_⟩
    intro stmt ok w hmem
    simp at hmem
  | cons a rest ih =>
    cases a with
    | info m =>
      obtain ⟨ext2, h2, h2e, h2s⟩ := ih { st with trace := st.trace ++ [.info m] }
      refine ⟨[.info m] ++ ext2, ?_, ?_, ?_⟩
      · rw [runPg, h2, List.append_assoc]
      · intro e he
        rcases List.mem_append.1 he with he | he
        · simp at he
          exact ⟨.info m, List.mem_cons_self _ _, by simp [he, pgStepEvent]⟩
        · obtain ⟨step, hs, hev⟩ := h2e e he
          exact ⟨step, List.mem_cons_of_mem _ hs, hev⟩
      · intro stmt ok w hmem
        rcases List.mem_cons.1 hmem with hmem | hmem
        · exact absurd hmem (by simp)
        · exact List.mem_append_right _ (h2s stmt ok w hmem)
    | tryDdl stmt0 ok0 w0 =>
      obtain ⟨d, hd, hde, hdm⟩ := tryStep_trace exec st stmt0 ok0 w0
      obtain ⟨ext2, h2, h2e, h2s⟩ := ih (tryStep exec st stmt0 ok0 w0)
      refine ⟨d ++ ext2, ?_, ?_, ?_⟩
      · rw [runPg, h2, hd, List.append_assoc]
      · intro e he
        rcases List.mem_append.1 he with he | he
        · exact ⟨.tryDdl stmt0 ok0 w0, List.mem_cons_self _ _, hde e he⟩
        · obtain ⟨step, hs, hev⟩ := h2e e he
          exact ⟨step, List.mem_cons_of_mem _ hs, hev⟩
      · intro stmt ok w hmem
        rcases List.mem_cons.1 hmem with hmem | hmem
        · apply List.mem_append_left
          cases hmem
          exact hdm
        · exact List.mem_append_right _ (h2s stmt ok w hmem)

/-! ### Honest-executor schema effect of the Guarded path -/

theorem applyOk_alter_user (s : DbSchema) (col : ColumnDef) :
    applyOk dbExec s (.alterAddColumn "user" true col)
      = { s with userTable := Option.map (fun cols => ensureCol cols col.name) s.userTable } := by
  obtain ⟨u, o, k, idx⟩ := s
  cases u with
  | none => rfl
  | some cols =>
    unfold applyOk dbExec ensureCol
    by_cases hc : col.name ∈ cols
    · simp [DbSchema.getTable, DbSchema.setTable, hc]
    · simp [DbSchema.getTable, DbSchema.setTable, hc]

theorem applyOk_alter_org (s : DbSchema) (col : ColumnDef) :
    applyOk dbExec s (.alterAddColumn "organization" true col)
      = { s with orgTable := Option.map (fun cols => ensureCol cols col.name) s.orgTable } := by
  obtain ⟨u, o, k, idx⟩ := s
  cases o with
  | none => rfl
  | some cols =>
    unfold applyOk dbExec ensureCol
    by_cases hc : col.name ∈ cols
    · simp [DbSchema.getTable, DbSchema.setTable, hc]
    · simp [DbSchema.getTable, DbSchema.setTable, hc]

theorem applyOk_createTable_sshkey (s : DbSchema) (cols : List ColumnDef)
    (hn : cols.map (fun c => c.name) = sshkeyColNames) :
    applyOk dbExec s (.createTable "sshkey" cols) = ensureSshkeyTable s := by
  obtain ⟨u, o, k, idx⟩ := s
  cases k with
  | some c => rfl
  | none =>
    unfold applyOk dbExec ensureSshkeyTable
    simp [DbSchema.getTable, DbSchema.setTable, hn]

theorem applyOk_createIndex (s : DbSchema) (uq : Bool) (n t : String)
    (ics : List String) :
    applyOk dbExec s (.createIndex uq n t ics)
      = { s with indexes := ensureCol s.indexes n } := by
  unfold applyOk dbExec ensureCol
  by_cases hc : n ∈ s.indexes <;> simp [hc]

theorem pgUserBlock_schema (st : PgState) :
    (runPg dbExec pgUserBlock st).schema
      = { st.schema with userTable := Option.map ensureQuota st.schema.userTable } := by
  simp only [pgUserBlock, runPg]
  rw [tryStep_schema, tryStep_schema, tryStep_schema, tryStep_schema]
  simp only [pgUserPrivateQuota, pgUserPublicQuota, pgUserPrivateUsed, pgUserPublicUsed]
  rw [applyOk_alter_user, applyOk_alter_user, applyOk_alter_user, applyOk_alter_user]
  obtain ⟨⟨u, o, k, idx⟩, tr⟩ := st
  cases u <;> simp [ensureQuota]

theorem pgOrgBlock_schema (st : PgState) :
    (runPg dbExec pgOrgBlock st).schema
      = { st.schema with orgTable := Option.map ensureQuota st.schema.orgTable } := by
  simp only [pgOrgBlock, runPg]
  rw [tryStep_schema, tryStep_schema, tryStep_schema, tryStep_schema]
  simp only [pgOrgPrivateQuota, pgOrgPublicQuota, pgOrgPrivateUsed, pgOrgPublicUsed]
  rw [applyOk_alter_org, applyOk_alter_org, applyOk_alter_org, applyOk_alter_org]
  obtain ⟨⟨u, o, k, idx⟩, tr⟩ := st
  cases o <;> simp [ensureQuota]

theorem pgTableBlock_schema (st : PgState) :
    (runPg dbExec pgTableBlock st).schema = ensureSshkey st.schema := by
  simp only [pgTableBlock, runPg]
  rw [tryStep_schema, tryStep_schema, tryStep_schema, tryStep_schema]
  simp only [pgCreateSshkey, idxUserId, idxFingerprint, idxUserFingerprint]
  rw [applyOk_createTable_sshkey _ _ (by rfl)]
  rw [applyOk_createIndex, applyOk_createIndex, applyOk_createIndex]
  rfl

theorem migrate_postgres_schema (st : PgState) :
    (migrate_postgres dbExec st).schema = ensureSshkey (ensureQuotaTables st.schema) := by
  unfold migrate_postgres pgProgram
  rw [runPg_append, runPg_append, pgTableBlock_schema, pgOrgBlock_schema,
      pgUserBlock_schema]
  rfl

theorem ensureSshkeyTable_exists (s : DbSchema) :
    ∃ kc, (ensureSshkeyTable s).sshkeyTable = some kc := by
  unfold ensureSshkeyTable
  cases hk : s.sshkeyTable with
  | none => exact ⟨sshkeyColNames, rfl⟩
  | some c => exact ⟨c, by simp [hk]⟩

theorem ensureSshkeyTable_of_some {s : DbSchema} {kc : List String}
    (h : s.sshkeyTable = some kc) : ensureSshkeyTable s = s := by
  unfold ensureSshkeyTable
  rw [h]

theorem ensureIndexes_sshkeyTable (s : DbSchema) :
    (ensureIndexes s).sshkeyTable = s.sshkeyTable := rfl

theorem idxNames_contains (l : List String) :
    (ensureCol (ensureCol (ensureCol l "sshkey_user_id") "sshkey_fingerprint")
        "sshkey_user_fingerprint").contains "sshkey_user_id" = true
  ∧ (ensureCol (ensureCol (ensureCol l "sshkey_user_id") "sshkey_fingerprint")
        "sshkey_user_fingerprint").contains "sshkey_fingerprint" = true
  ∧ (ensureCol (ensureCol (ensureCol l "sshkey_user_id") "sshkey_fingerprint")
        "sshkey_user_fingerprint").contains "sshkey_user_fingerprint" = true := by
  refine ⟨?_, ?_, ?_⟩
  · exact ensureCol_contains_mono _ _ _ (ensureCol_contains_mono _ _ _
      (ensureCol_contains_self _ _))
  · exact ensureCol_contains_mono _ _ _ (ensureCol_contains_self _ _)
  · exact ensureCol_contains_self _ _

theorem ensureIndexes_idem (s : DbSchema) :
    ensureIndexes (ensureIndexes s) = ensureIndexes s := by
  obtain ⟨h1, h2, h3⟩ := idxNames_contains s.indexes
  unfold ensureIndexes
  simp only
  rw [ensureCol_of_contains h1, ensureCol_of_contains h2, ensureCol_of_contains h3]

theorem ensureSshkey_idem (s : DbSchema) :
    ensureSshkey (ensureSshkey s) = ensureSshkey s := by
  obtain ⟨kc, hk⟩ := ensureSshkeyTable_exists s
  unfold ensureSshkey
  rw [ensureSshkeyTable_of_some (by rw [ensureIndexes_sshkeyTable]; exact hk),
      ensureIndexes_idem]

/-! ### Honest-executor behaviour of the Unguarded path, block by block -/

theorem sqUserBlock_none (st : SqState) (h : st.err = none)
    (hu : st.schema.userTable = none) :
    runSq dbExec sqUserBlock st =
      { st with existing := [],
                trace := st.trace ++
                  [.info "Checking User table schema...", .sql (.pragmaTableInfo "user"),
                   .info "Adding private_quota_bytes to User...", .sql sqUserPrivateQuota],
                err := some "no such table" } := by
  obtain ⟨⟨u, o, k, idx⟩, ex, tr, er⟩ := st
  simp only at h hu
  subst h
  subst hu
  simp [sqUserBlock, runSq, sqStep, dbExec, DbSchema.columnsOf, DbSchema.getTable,
        sqUserPrivateQuota]

theorem sqUserBlock_some (st : SqState) (cols : List String) (h : st.err = none)
    (hu : st.schema.userTable = some cols) :
    runSq dbExec sqUserBlock st =
      { st with schema := { st.schema with userTable := some (ensureQuota cols) },
                existing := cols,
                trace := st.trace ++ userBlockTrace cols,
                err := none } := by
  obtain ⟨⟨u, o, k, idx⟩, ex, tr, er⟩ := st
  simp only at h hu
  subst h
  subst hu
  by_cases h1 : "private_quota_bytes" ∈ cols <;>
    by_cases h2 : "public_quota_bytes" ∈ cols <;>
      by_cases h3 : "private_used_bytes" ∈ cols <;>
        by_cases h4 : "public_used_bytes" ∈ cols <;>
          simp [sqUserBlock, runSq, sqStep, dbExec, DbSchema.columnsOf,
                DbSchema.getTable, DbSchema.setTable, sqUserPrivateQuota,
                sqUserPublicQuota, sqUserPrivateUsed, sqUserPublicUsed,
                userBlockTrace, condAddTrace, ensureQuota, ensureCol,
                h1, h2, h3, h4]

theorem sqOrgBlock_none (st : SqState) (h : st.err = none)
    (ho : st.schema.orgTable = none) :
    runSq dbExec sqOrgBlock st =
      { st with existing := [],
                trace := st.trace ++
                  [.info "Checking Organization table schema...",
                   .sql (.pragmaTableInfo "organization"),
                   .info "Adding private_quota_bytes to Organization...",
                   .sql sqOrgPrivateQuota],
                err := some "no such table" } := by
  obtain ⟨⟨u, o, k, idx⟩, ex, tr, er⟩ := st
  simp only at h ho
  subst h
  subst ho
  simp [sqOrgBlock, runSq, sqStep, dbExec, DbSchema.columnsOf, DbSchema.getTable,
        sqOrgPrivateQuota]

theorem sqOrgBlock_some (st : SqState) (cols : List String) (h : st.err = none)
    (ho : st.schema.orgTable = some cols) :
    runSq dbExec sqOrgBlock st =
      { st with schema := { st.schema with orgTable := some (ensureQuota cols) },
                existing := cols,
                trace := st.trace ++ orgBlockTrace cols,
                err := none } := by
  obtain ⟨⟨u, o, k, idx⟩, ex, tr, er⟩ := st
  simp only at h ho
  subst h
  subst ho
  by_cases h1 : "private_quota_bytes" ∈ cols <;>
    by_cases h2 : "public_quota_bytes" ∈ cols <;>
      by_cases h3 : "private_used_bytes" ∈ cols <;>
        by_cases h4 : "public_used_bytes" ∈ cols <;>
          simp [sqOrgBlock, runSq, sqStep, dbExec, DbSchema.columnsOf,
                DbSchema.getTable, DbSchema.setTable, sqOrgPrivateQuota,
                sqOrgPublicQuota, sqOrgPrivateUsed, sqOrgPublicUsed,
                orgBlockTrace, condAddTrace, ensureQuota, ensureCol,
                h1, h2, h3, h4]

theorem sqTableBlock_run (st : SqState) (h : st.err = none) :
    runSq dbExec sqTableBlock st =
      { st with schema := ensureSshkey st.schema,
                trace := st.trace ++ tableBlockTrace,
                err := none } := by
  obtain ⟨⟨u, o, k, idx⟩, ex, tr, er⟩ := st
  simp only at h
  subst h
  cases k <;>
    · simp [sqTableBlock, runSq, sqStep, dbExec, DbSchema.getTable, DbSchema.setTable,
            ensureSshkey, ensureSshkeyTable, ensureIndexes, ensureCol,
            tableBlockTrace, sqCreateSshkey, idxUserId, idxFingerprint,
            idxUserFingerprint, sshkeyColNames]
      split_ifs <;> simp_all [sshkeyColumnsSqlite]

theorem ensureSshkey_userTable (s : DbSchema) :
    (ensureSshkey s).userTable = s.userTable := by
  unfold ensureSshkey ensureIndexes ensureSshkeyTable
  cases hk : s.sshkeyTable <;> simp

theorem ensureSshkey_orgTable (s : DbSchema) :
    (ensureSshkey s).orgTable = s.orgTable := by
  unfold ensureSshkey ensureIndexes ensureSshkeyTable
  cases hk : s.sshkeyTable <;> simp

theorem userBlockTrace_complete {cols : List String}
    (h1 : cols.contains "private_quota_bytes" = true)
    (h2 : cols.contains "public_quota_bytes" = true)
    (h3 : cols.contains "private_used_bytes" = true)
    (h4 : cols.contains "public_used_bytes" = true) :
    userBlockTrace cols =
      [.info "Checking User table schema...", .sql (.pragmaTableInfo "user")] := by
  have m1 : "private_quota_bytes" ∈ cols := by simpa using h1
  have m2 : "public_quota_bytes" ∈ cols := by simpa using h2
  have m3 : "private_used_bytes" ∈ cols := by simpa using h3
  have m4 : "public_used_bytes" ∈ cols := by simpa using h4
  simp [userBlockTrace, condAddTrace, m1, m2, m3, m4]

theorem orgBlockTrace_complete {cols : List String}
    (h1 : cols.contains "private_quota_bytes" = true)
    (h2 : cols.contains "public_quota_bytes" = true)
    (h3 : cols.contains "private_used_bytes" = true)
    (h4 : cols.contains "public_used_bytes" = true) :
    orgBlockTrace cols =
      [.info "Checking Organization table schema...",
       .sql (.pragmaTableInfo "organization")] := by
  have m1 : "private_quota_bytes" ∈ cols := by simpa using h1
  have m2 : "public_quota_bytes" ∈ cols := by simpa using h2
  have m3 : "private_used_bytes" ∈ cols := by simpa using h3
  have m4 : "public_used_bytes" ∈ cols := by simpa using h4
  simp [orgBlockTrace, condAddTrace, m1, m2, m3, m4]

/-- Full SQLite program when the `user` table is absent: the very first
unguarded column addition fails fatally, nothing later runs, the schema is
untouched. -/
theorem sqProgram_noUser (st : SqState) (h : st.err = none)
    (hu : st.schema.userTable = none) :
    runSq dbExec sqProgram st =
      { st with existing := [],
                trace := st.trace ++
                  [.info "Checking User table schema...", .sql (.pragmaTableInfo "user"),
                   .info "Adding private_quota_bytes to User...", .sql sqUserPrivateQuota],
                err := some "no such table" } := by
  unfold sqProgram
  rw [runSq_append, runSq_append, sqUserBlock_none st h hu]
  rw [runSq_of_err sqOrgBlock (by simp), runSq_of_err sqTableBlock (by simp)]

/-- Full SQLite program when `user` exists but `organization` is absent: the
User quota block completes, the first Organization addition fails fatally, the
table/index block never runs. -/
theorem sqProgram_noOrg (st : SqState) (ucols : List String) (h : st.err = none)
    (hu : st.schema.userTable = some ucols) (ho : st.schema.orgTable = none) :
    runSq dbExec sqProgram st =
      { st with schema := { st.schema with userTable := some (ensureQuota ucols) },
                existing := [],
                trace := st.trace ++ userBlockTrace ucols ++
                  [.info "Checking Organization table schema...",
                   .sql (.pragmaTableInfo "organization"),
                   .info "Adding private_quota_bytes to Organization...",
                   .sql sqOrgPrivateQuota],
                err := some "no such table" } := by
  unfold sqProgram
  rw [runSq_append, runSq_append, sqUserBlock_some st ucols h hu]
  rw [sqOrgBlock_none _ (by simp) (by simp [ho]), runSq_of_err _ (by simp)]

/-- Full SQLite program when both entity tables exist: every step completes,
the run ends without error, and the final schema is the ensured one. -/
theorem sqProgram_full (st : SqState) (ucols ocols : List String)
    (h : st.err = none) (hu : st.schema.userTable = some ucols)
    (ho : st.schema.orgTable = some ocols) :
    runSq dbExec sqProgram st =
      { st with schema := ensureSshkey
                  { st.schema with userTable := some (ensureQuota ucols),
                                   orgTable := some (ensureQuota ocols) },
                existing := ocols,
                trace := st.trace ++ userBlockTrace ucols ++ orgBlockTrace ocols
                  ++ tableBlockTrace,
                err := none } := by
  unfold sqProgram
  rw [runSq_append, runSq_append, sqUserBlock_some st ucols h hu]
  rw [sqOrgBlock_some _ ocols (by simp) (by simp [ho])]
  rw [sqTableBlock_run _ (by simp)]

/-! ### Introspection-precedes-alteration scan -/

theorem seenAfter_append (seen : List String) (t1 t2 : List Event) :
    seenAfter seen (t1 ++ t2) = seenAfter (seenAfter seen t1) t2 := by
  induction t1 generalizing seen with
  | nil => simp [seenAfter]
  | cons e rest ih =>
    cases e with
    | sql stmt =>
      cases stmt with
      | pragmaTableInfo t => simp [seenAfter, ih]
      | alterAddColumn t g col => simp [seenAfter, ih]
      | createTable t cols => simp [seenAfter, ih]
      | createIndex u n t cols => simp [seenAfter, ih]
    | connect => simp [seenAfter, ih]
    | info m => simp [seenAfter, ih]
    | success m => simp [seenAfter, ih]
    | warning m => simp [seenAfter, ih]

theorem alterScan_append (seen : List String) (t1 t2 : List Event) :
    alterScan seen (t1 ++ t2)
      = (alterScan seen t1 && alterScan (seenAfter seen t1) t2) := by
  induction t1 generalizing seen with
  | nil => simp [alterScan, seenAfter]
  | cons e rest ih =>
    cases e with
    | sql stmt =>
      cases stmt with
      | pragmaTableInfo t => simp [alterScan, seenAfter, ih]
      | alterAddColumn t g col => simp [alterScan, seenAfter, ih, Bool.and_assoc]
      | createTable t cols => simp [alterScan, seenAfter, ih]
      | createIndex u n t cols => simp [alterScan, seenAfter, ih]
    | connect => simp [alterScan, seenAfter, ih]
    | info m => simp [alterScan, seenAfter, ih]
    | success m => simp [alterScan, seenAfter, ih]
    | warning m => simp [alterScan, seenAfter, ih]

/-- Invariant carried through an Unguarded-path run over an arbitrary
executor: if the remaining program only adds columns to tables it has
introspected (relative to the tables `seen` so far), the scan accepts the
whole trace. -/
theorem runSq_scan (exec : Exec) (prog : List SqStep) (st : SqState)
    (seen : List String) (hok : sqProgScanOk seen prog = true)
    (hbase : alterScan [] st.trace = true)
    (hseen : seenAfter [] st.trace = seen) :
    alterScan [] (runSq exec prog st).trace = true := by
  induction prog generalizing st seen with
  | nil => simpa [runSq] using hbase
  | cons a rest ih =>
    by_cases he : st.err.isSome
    · simpa [runSq, he] using hbase
    · have hstep : runSq exec (a :: rest) st = runSq exec rest (sqStep exec st a) := by
        simp [runSq, he]
      rw [hstep]
      cases a with
      | info m =>
        refine ih _ seen (by simpa [sqProgScanOk] using hok) ?_ ?_
        · simp [sqStep, alterScan_append, hbase, hseen, alterScan]
        · simp [sqStep, seenAfter_append, hseen, seenAfter]
      | successLog m =>
        refine ih _ seen (by simpa [sqProgScanOk] using hok) ?_ ?_
        · simp [sqStep, alterScan_append, hbase, hseen, alterScan]
        · simp [sqStep, seenAfter_append, hseen, seenAfter]
      | introspectCols t =>
        refine ih _ (t :: seen) (by simpa [sqProgScanOk] using hok) ?_ ?_
        · simp [sqStep, alterScan_append, hbase, hseen, alterScan]
        · simp [sqStep, seenAfter_append, hseen, seenAfter]
      | condAdd c stmt im ok =>
        cases stmt with
        | pragmaTableInfo t => simp [sqProgScanOk] at hok
        | alterAddColumn t g col =>
          have hok2 : t ∈ seen ∧ sqProgScanOk seen rest = true := by
            simpa [sqProgScanOk, Bool.and_eq_true] using hok
          by_cases hc : c ∈ st.existing
          · have hst : sqStep exec st (.condAdd c (.alterAddColumn t g col) im ok) = st := by
              simp [sqStep, hc]
            rw [hst]
            exact ih _ seen hok2.2 hbase hseen
          · cases hx : exec st.schema (Stmt.alterAddColumn t g col) with
            | ok s2 =>
              refine ih _ seen hok2.2 ?_ ?_
              · simp [sqStep, hc, hx, alterScan_append, hbase, hseen, alterScan, hok2.1]
              · simp [sqStep, hc, hx, seenAfter_append, hseen, seenAfter]
            | error e =>
              refine ih _ seen hok2.2 ?_ ?_
              · simp [sqStep, hc, hx, alterScan_append, hbase, hseen, alterScan, hok2.1]
              · simp [sqStep, hc, hx, seenAfter_append, hseen, seenAfter]
        | createTable t0 cols0 =>
          have hok2 : sqProgScanOk seen rest = true := by
            simpa [sqProgScanOk] using hok
          by_cases hc : c ∈ st.existing
          · have hst : sqStep exec st (.condAdd c (.createTable t0 cols0) im ok) = st := by
              simp [sqStep, hc]
            rw [hst]
            exact ih _ seen hok2 hbase hseen
          · cases hx : exec st.schema (Stmt.createTable t0 cols0) with
            | ok s2 =>
              refine ih _ seen hok2 ?_ ?_
              · simp [sqStep, hc, hx, alterScan_append, hbase, hseen, alterScan]
              · simp [sqStep, hc, hx, seenAfter_append, hseen, seenAfter]
            | error e =>
              refine ih _ seen hok2 ?_ ?_
              · simp [sqStep, hc, hx, alterScan_append, hbase, hseen, alterScan]
              · simp [sqStep, hc, hx, seenAfter_append, hseen, seenAfter]
        | createIndex uq n t0 cols0 =>
          have hok2 : sqProgScanOk seen rest = true := by
            simpa [sqProgScanOk] using hok
          by_cases hc : c ∈ st.existing
          · have hst : sqStep exec st (.condAdd c (.createIndex uq n t0 cols0) im ok) = st := by
              simp [sqStep, hc]
            rw [hst]
            exact ih _ seen hok2 hbase hseen
          · cases hx : exec st.schema (Stmt.createIndex uq n t0 cols0) with
            | ok s2 =>
              refine ih _ seen hok2 ?_ ?_
              · simp [sqStep, hc, hx, alterScan_append, hbase, hseen, alterScan]
              · simp [sqStep, hc, hx, seenAfter_append, hseen, seenAfter]
            | error e =>
              refine ih _ seen hok2 ?_ ?_
              · simp [sqStep, hc, hx, alterScan_append, hbase, hseen, alterScan]
              · simp [sqStep, hc, hx, seenAfter_append, hseen, seenAfter]
      | rawDdl stmt =>
        cases stmt with
        | pragmaTableInfo t => simp [sqProgScanOk] at hok
        | alterAddColumn t g col =>
          have hok2 : t ∈ seen ∧ sqProgScanOk seen rest = true := by
            simpa [sqProgScanOk, Bool.and_eq_true] using hok
          cases hx : exec st.schema (Stmt.alterAddColumn t g col) with
          | ok s2 =>
            refine ih _ seen hok2.2 ?_ ?_
            · simp [sqStep, hx, alterScan_append, hbase, hseen, alterScan, hok2.1]
            · simp [sqStep, hx, seenAfter_append, hseen, seenAfter]
          | error e =>
            refine ih _ seen hok2.2 ?_ ?_
            · simp [sqStep, hx, alterScan_append, hbase, hseen, alterScan, hok2.1]
            · simp [sqStep, hx, seenAfter_append, hseen, seenAfter]
        | createTable t0 cols0 =>
          have hok2 : sqProgScanOk seen rest = true := by
            simpa [sqProgScanOk] using hok
          cases hx : exec st.schema (Stmt.createTable t0 cols0) with
          | ok s2 =>
            refine ih _ seen hok2 ?_ ?_
            · simp [sqStep, hx, alterScan_append, hbase, hseen, alterScan]
            · simp [sqStep, hx, seenAfter_append, hseen, seenAfter]
          | error e =>
            refine ih _ seen hok2 ?_ ?_
            · simp [sqStep, hx, alterScan_append, hbase, hseen, alterScan]
            · simp [sqStep, hx, seenAfter_append, hseen, seenAfter]
        | createIndex uq n t0 cols0 =>
          have hok2 : sqProgScanOk seen rest = true := by
            simpa [sqProgScanOk] using hok
          cases hx : exec st.schema (Stmt.createIndex uq n t0 cols0) with
          | ok s2 =>
            refine ih _ seen hok2 ?_ ?_
            · simp [sqStep, hx, alterScan_append, hbase, hseen, alterScan]
            · simp [sqStep, hx, seenAfter_append, hseen, seenAfter]
          | error e =>
            refine ih _ seen hok2 ?_ ?_
            · simp [sqStep, hx, alterScan_append, hbase, hseen, alterScan]
            · simp [sqStep, hx, seenAfter_append, hseen, seenAfter]

/-! ### Orchestrator-level helper lemmas -/

theorem migrate_pg_def (exec : Exec) (s : DbSchema) :
    migrate exec "postgres" s =
      { schema := (migrate_postgres exec (pgInit s)).schema,
        trace := (migrate_postgres exec (pgInit s)).trace
          ++ [.success "Migration completed successfully!"],
        err := none } := by
  unfold migrate
  rw [if_pos rfl]

theorem migrate_sq_def (exec : Exec) (b : String) (s : DbSchema)
    (hb : b ≠ "postgres") :
    migrate exec b s =
      (match (migrate_sqlite exec (sqInit s)).err with
       | none => { schema := (migrate_sqlite exec (sqInit s)).schema,
                   trace := (migrate_sqlite exec (sqInit s)).trace
                     ++ [.success "Migration completed successfully!"],
                   err := none }
       | some e => { schema := (migrate_sqlite exec (sqInit s)).schema,
                     trace := (migrate_sqlite exec (sqInit s)).trace,
                     err := some e }) := by
  unfold migrate
  rw [if_neg hb]

theorem getLast_append_singleton (l : List Event) (a : Event) :
    (l ++ [a]).getLast? = some a := by simp

theorem sqInit_trace (s : DbSchema) :
    (sqInit s).trace = [Event.connect, Event.info "Starting database migration...",
                        Event.info "Detected SQLite database"] := rfl

theorem pgInit_trace (s : DbSchema) :
    (pgInit s).trace = [Event.connect, Event.info "Starting database migration...",
                        Event.info "Detected PostgreSQL database"] := rfl

/-- The Unguarded strategy never logs the orchestrator's final success
message itself. -/
theorem no_final_sq (exec : Exec) (s : DbSchema) :
    Event.success "Migration completed successfully!"
      ∉ (migrate_sqlite exec (sqInit s)).trace := by
  obtain ⟨ext, htr, -, hev, -⟩ := runSq_run exec sqProgram (sqInit s) rfl (by decide)
  unfold migrate_sqlite
  rw [htr]
  intro hmem
  rcases List.mem_append.1 hmem with hmem | hmem
  · rw [sqInit_trace] at hmem
    exact absurd hmem (by decide)
  · obtain ⟨step, hstep, hse⟩ := hev _ hmem
    have hall := List.all_eq_true.mp
      (show sqProgram.all sqStepNoFinalMsg = true by decide) step hstep
    cases step with
    | info m => exact absurd hse (by simp [sqStepEvent])
    | introspectCols t => exact absurd hse (by simp [sqStepEvent])
    | rawDdl stmt => exact absurd hse (by simp [sqStepEvent])
    | condAdd c stmt im ok =>
      simp only [sqStepEvent] at hse
      rcases hse with hse | hse | hse
      · exact absurd hse (by simp)
      · exact absurd hse (by simp)
      · injection hse with h
        rw [← h] at hall
        simp [sqStepNoFinalMsg] at hall
    | successLog m =>
      simp only [sqStepEvent] at hse
      injection hse with h
      rw [← h] at hall
      simp [sqStepNoFinalMsg] at hall

/-- The Guarded strategy never issues a schema-introspection query. -/
theorem no_pragma_pg (exec : Exec) (s : DbSchema) :
    ∀ e ∈ (migrate_postgres exec (pgInit s)).trace, isIntrospection e = false := by
  obtain ⟨ext, htr, hev, -⟩ := runPg_run exec pgProgram (pgInit s)
  unfold migrate_postgres
  rw [htr]
  intro e hmem
  rcases List.mem_append.1 hmem with hmem | hmem
  · rw [pgInit_trace] at hmem
    simp only [List.mem_cons, List.not_mem_nil, or_false] at hmem
    rcases hmem with h | h | h <;> simp [h, isIntrospection]
  · obtain ⟨step, hstep, hse⟩ := hev _ hmem
    have hall := List.all_eq_true.mp
      (show pgProgram.all pgStepNoPragma = true by decide) step hstep
    cases step with
    | info m =>
      simp only [pgStepEvent] at hse
      simp [hse, isIntrospection]
    | tryDdl stmt ok w =>
      simp only [pgStepEvent] at hse
      rcases hse with hse | hse | ⟨e2, hse⟩
      · subst hse
        cases stmt with
        | pragmaTableInfo t => simp [pgStepNoPragma] at hall
        | alterAddColumn t g col => simp [isIntrospection]
        | createTable t cols => simp [isIntrospection]
        | createIndex u n t cols => simp [isIntrospection]
      · simp [hse, isIntrospection]
      · simp [hse, isIntrospection]

/-- Claim C9: the dialect branch defaults to the Unguarded strategy — for
every configured backend value other than the exact string `"postgres"`
(empty, misspelled, anything), the orchestrator behaves exactly as the
SQLite-configured run does, logging the SQLite detection, rather than failing
on an unrecognized configuration. -/
theorem migrate_dispatch_defaults_to_sqlite (exec : Exec) (db_backend : String)
    (s : DbSchema) (hb : db_backend ≠ "postgres") :
    migrate exec db_backend s = migrate exec "sqlite" s
  ∧ Event.info "Detected SQLite database" ∈ (migrate exec db_backend s).trace := by
  constructor
  · unfold migrate
    rw [if_neg hb, if_neg (by decide)]
  · rw [migrate_sq_def exec db_backend s hb]
    obtain ⟨ext, htr, -, -, -⟩ := runSq_run exec sqProgram (sqInit s) rfl (by decide)
    have hm : Event.info "Detected SQLite database"
        ∈ (migrate_sqlite exec (sqInit s)).trace := by
      unfold migrate_sqlite
      rw [htr, sqInit_trace]
      exact List.mem_append_left _ (by decide)
    cases hq : (migrate_sqlite exec (sqInit s)).err with
    | none =>
      simp only [hq]
      exact List.mem_append_left _ hm
    | some e =>
      simp only [hq]
      exact hm

/-- Witness for C9 at the concrete backend value `""`. -/
theorem migrate_dispatch_defaults_to_sqlite_witness :
    migrate dbExec "" exampleSchema = migrate dbExec "sqlite" exampleSchema
  ∧ Event.info "Detected SQLite database" ∈ (migrate dbExec "" exampleSchema).trace :=
  migrate_dispatch_defaults_to_sqlite dbExec "" exampleSchema (by decide)

/-- Counterexample to claim C2 as stated: under both dialects the
credential-key table the script creates has eight columns, not seven. -/
theorem sshkey_seven_columns_counterexample :
    ¬ (sshkeyColumnsPostgres.length = 7 ∧ sshkeyColumnsSqlite.length = 7) := by
  decide

/-- Claim C2 (amended: eight columns instead of seven): under both dialects
the sshkey table has exactly eight columns — a generated primary key, an
owner reference, a key-type string, public-key text, a globally-unique
fingerprint, a title, a nullable last-used timestamp, and a creation
timestamp defaulting to the current time — and both strategies ensure exactly
three indexes: a lookup index on the owner reference, a lookup index on the
fingerprint, and a composite unique index on (owner reference,
fingerprint). -/
theorem sshkey_table_and_indexes :
    sshkeyColumnsPostgres.length = 8 ∧ sshkeyColumnsSqlite.length = 8
  ∧ sshkeyShape sshkeyColumnsPostgres = true
  ∧ sshkeyShape sshkeyColumnsSqlite = true
  ∧ Stmt.createTable "sshkey" sshkeyColumnsPostgres ∈ stmtsOfPg
  ∧ Stmt.createTable "sshkey" sshkeyColumnsSqlite ∈ stmtsOfSq
  ∧ idxUserId = Stmt.createIndex false "sshkey_user_id" "sshkey" ["user_id"]
  ∧ idxFingerprint = Stmt.createIndex false "sshkey_fingerprint" "sshkey" ["fingerprint"]
  ∧ idxUserFingerprint
      = Stmt.createIndex true "sshkey_user_fingerprint" "sshkey" ["user_id", "fingerprint"]
  ∧ idxUserId ∈ stmtsOfPg ∧ idxFingerprint ∈ stmtsOfPg ∧ idxUserFingerprint ∈ stmtsOfPg
  ∧ idxUserId ∈ stmtsOfSq ∧ idxFingerprint ∈ stmtsOfSq ∧ idxUserFingerprint ∈ stmtsOfSq
  ∧ (stmtsOfPg.filter isCreateIndexStmt).length = 3
  ∧ (stmtsOfSq.filter isCreateIndexStmt).length = 3 := by
  decide

/-- Claim C6: both quota-bearing tables receive the identical set of four
column specifications under either dialect — the two capacity limits default
to NULL, the two consumed amounts default to 0. -/
theorem quota_columns_identical :
    (altersOn stmtsOfPg "user").filterMap alterSpec
      = (altersOn stmtsOfPg "organization").filterMap alterSpec
  ∧ (altersOn stmtsOfSq "user").filterMap alterSpec
      = (altersOn stmtsOfSq "organization").filterMap alterSpec
  ∧ (altersOn stmtsOfPg "user").filterMap alterSpec
      = [("private_quota_bytes", "BIGINT", some SqlDefault.null),
         ("public_quota_bytes", "BIGINT", some SqlDefault.null),
         ("private_used_bytes", "BIGINT", some (SqlDefault.intVal 0)),
         ("public_used_bytes", "BIGINT", some (SqlDefault.intVal 0))]
  ∧ (altersOn stmtsOfSq "user").filterMap alterSpec
      = [("private_quota_bytes", "INTEGER", some SqlDefault.null),
         ("public_quota_bytes", "INTEGER", some SqlDefault.null),
         ("private_used_bytes", "INTEGER", some (SqlDefault.intVal 0)),
         ("public_used_bytes", "INTEGER", some (SqlDefault.intVal 0))] := by
  decide

/-- Claim C5: under the Guarded strategy a statement failure is caught for
that statement alone and execution continues: every statement of the program
is issued no matter which statements fail, and in the simulated scenario
where the second of the four User column additions fails, the first has taken
effect, the second is logged as a warning, the remaining two still execute,
and all later steps (including the table/index block and the final success)
still run. -/
theorem guarded_failure_caught_and_continues :
    (∀ (exec : Exec) (s : DbSchema) (stmt : Stmt) (ok w : String),
        PgStep.tryDdl stmt ok w ∈ pgProgram →
        Event.sql stmt ∈ (migrate exec "postgres" s).trace)
  ∧ ((migrate failPgSecond "postgres" exampleSchema).err = none
  ∧ Event.success "Added private_quota_bytes to User"
      ∈ (migrate failPgSecond "postgres" exampleSchema).trace
  ∧ Event.warning "Column public_quota_bytes might already exist: simulated failure"
      ∈ (migrate failPgSecond "postgres" exampleSchema).trace
  ∧ Event.success "Added private_used_bytes to User"
      ∈ (migrate failPgSecond "postgres" exampleSchema).trace
  ∧ Event.success "Added public_used_bytes to User"
      ∈ (migrate failPgSecond "postgres" exampleSchema).trace
  ∧ ((migrate failPgSecond "postgres" exampleSchema).schema.columnsOf "user").contains
      "private_quota_bytes" = true
  ∧ ((migrate failPgSecond "postgres" exampleSchema).schema.columnsOf "user").contains
      "public_quota_bytes" = false
  ∧ ((migrate failPgSecond "postgres" exampleSchema).schema.columnsOf "user").contains
      "private_used_bytes" = true
  ∧ ((migrate failPgSecond "postgres" exampleSchema).schema.columnsOf "user").contains
      "public_used_bytes" = true
  ∧ Event.success "Created SSHKey table"
      ∈ (migrate failPgSecond "postgres" exampleSchema).trace
  ∧ Event.success "Migration completed successfully!"
      ∈ (migrate failPgSecond "postgres" exampleSchema).trace) := by
  constructor
  · intro exec s stmt ok w hmem
    rw [migrate_pg_def]
    obtain ⟨ext, htr, -, hiss⟩ := runPg_run exec pgProgram (pgInit s)
    have : Event.sql stmt ∈ (migrate_postgres exec (pgInit s)).trace := by
      unfold migrate_postgres
      rw [htr]
      exact List.mem_append_right _ (hiss stmt ok w hmem)
    exact List.mem_append_left _ this
  · decide

/-- Counterexample to claim C8 as stated: the Guarded path wraps twelve DDL
statements in try/except blocks, not eleven. -/
theorem pg_eleven_statements_counterexample : ¬ stmtsOfPg.length = 11 := by
  decide

/-- Claim C8 (amended: twelve statements instead of eleven): every one of the
twelve DDL statements of the Guarded path is wrapped in a catch-all handler,
so for every behaviour of the statement executor the run reaches the final
success event with no propagated error — even on an executor on which every
single statement fails. -/
theorem pg_all_statements_guarded :
    stmtsOfPg.length = 12
  ∧ (∀ (exec : Exec) (s : DbSchema),
      (migrate exec "postgres" s).err = none
      ∧ (migrate exec "postgres" s).trace.getLast?
          = some (Event.success "Migration completed successfully!"))
  ∧ (migrate failAll "postgres" exampleSchema).err = none
  ∧ Event.success "Migration completed successfully!"
      ∈ (migrate failAll "postgres" exampleSchema).trace := by
  refine ⟨by decide, ?_, by decide, by decide⟩
  intro exec s
  rw [migrate_pg_def]
  exact ⟨rfl, getLast_append_singleton _ _⟩

/-- Claim C3: a Guarded-configured run issues no schema-introspection query;
an Unguarded-configured run introspects a table's column metadata before
every column-addition DDL statement it issues for that table (expressed by
the `alterScan` acceptance of the trace). -/
theorem dialect_introspection_discipline (exec : Exec) (db_backend : String)
    (s : DbSchema) :
    (db_backend = "postgres" →
      ∀ e ∈ (migrate exec db_backend s).trace, isIntrospection e = false)
  ∧ (db_backend ≠ "postgres" →
      alterScan [] (migrate exec db_backend s).trace = true) := by
  constructor
  · intro hb e he
    subst hb
    rw [migrate_pg_def] at he
    rcases List.mem_append.1 he with he | he
    · exact no_pragma_pg exec s e he
    · simp only [List.mem_singleton] at he
      simp [he, isIntrospection]
  · intro hb
    rw [migrate_sq_def exec db_backend s hb]
    have hscan : alterScan [] (migrate_sqlite exec (sqInit s)).trace = true := by
      unfold migrate_sqlite
      exact runSq_scan exec sqProgram (sqInit s) [] (by decide)
        (by rw [sqInit_trace]; decide) (by rw [sqInit_trace]; decide)
    cases hq : (migrate_sqlite exec (sqInit s)).err with
    | none =>
      simp only [hq]
      rw [alterScan_append]
      simp [hscan, alterScan]
    | some e =>
      simp only [hq]
      exact hscan

/-- Witness for C3 at both concrete dialect configurations. -/
theorem dialect_introspection_discipline_witness :
    (∀ e ∈ (migrate dbExec "postgres" exampleSchema).trace, isIntrospection e = false)
  ∧ alterScan [] (migrate dbExec "sqlite" exampleSchema).trace = true :=
  ⟨(dialect_introspection_discipline dbExec "postgres" exampleSchema).1 rfl,
   (dialect_introspection_discipline dbExec "sqlite" exampleSchema).2 (by decide)⟩

/-- Claim C4: under the Unguarded strategy a DDL failure is fatal: the error
propagates (the final success event is never logged), the run halts at the
failing statement (the trace ends with the statement that failed, nothing
later is issued), and the final schema is exactly the replay of the
statements that completed before it — effects of completed steps remain, no
rollback. -/
theorem unguarded_failure_fatal (exec : Exec) (db_backend : String)
    (s : DbSchema) (hb : db_backend ≠ "postgres") (e : String)
    (he : (migrate exec db_backend s).err = some e) :
    Event.success "Migration completed successfully!"
      ∉ (migrate exec db_backend s).trace
  ∧ (∃ pre stmt, (migrate exec db_backend s).trace = pre ++ [Event.sql stmt])
  ∧ (migrate exec db_backend s).schema
      = replay exec s (migrate exec db_backend s).trace := by
  rw [migrate_sq_def exec db_backend s hb] at he ⊢
  cases hq : (migrate_sqlite exec (sqInit s)).err with
  | none =>
    rw [hq] at he
    simp at he
  | some e0 =>
    rw [hq] at he
    simp only [hq]
    obtain ⟨ext, htr, hsch, hev, herr⟩ := runSq_run exec sqProgram (sqInit s) rfl (by decide)
    have herr2 : (runSq exec sqProgram (sqInit s)).err ≠ none := by
      have : (migrate_sqlite exec (sqInit s)).err = some e0 := hq
      unfold migrate_sqlite at this
      simp [this]
    obtain ⟨pre, stmt, hps⟩ := herr herr2
    refine ⟨no_final_sq exec s, ?_, ?_⟩
    · refine ⟨(sqInit s).trace ++ pre, stmt, ?_⟩
      show (migrate_sqlite exec (sqInit s)).trace = _
      unfold migrate_sqlite
      rw [htr, hps, List.append_assoc]
    · show (migrate_sqlite exec (sqInit s)).schema
        = replay exec s (migrate_sqlite exec (sqInit s)).trace
      unfold migrate_sqlite
      rw [htr, replay_append]
      have hinit : replay exec s (sqInit s).trace = s := by
        rw [sqInit_trace]
        rfl
      rw [hinit]
      exact hsch

/-- Witness for C4: a run on which the addition of `public_quota_bytes` to
`user` fails even though the absence check passed. -/
theorem unguarded_failure_fatal_witness :
    Event.success "Migration completed successfully!"
      ∉ (migrate failSqSecond "sqlite" exampleSchema).trace
  ∧ (∃ pre stmt,
      (migrate failSqSecond "sqlite" exampleSchema).trace = pre ++ [Event.sql stmt])
  ∧ (migrate failSqSecond "sqlite" exampleSchema).schema
      = replay failSqSecond exampleSchema
          (migrate failSqSecond "sqlite" exampleSchema).trace :=
  unguarded_failure_fatal failSqSecond "sqlite" exampleSchema (by decide)
    "simulated backend failure" (by decide)

/-- Claim C7: the orchestrator's step order — connect, start log, backend
detection, then the dialect strategy (itself the User columns block, then the
Organization columns block, then the table/index block, in that order), and
the final success event is emitted iff no fatal error occurred, in which case
it is the last event of the run. -/
theorem orchestrator_order (exec : Exec) (db_backend : String) (s : DbSchema) :
    (db_backend = "postgres" →
      ∃ tail, (migrate exec db_backend s).trace
        = Event.connect :: Event.info "Starting database migration..."
          :: Event.info "Detected PostgreSQL database" :: tail)
  ∧ (db_backend ≠ "postgres" →
      ∃ tail, (migrate exec db_backend s).trace
        = Event.connect :: Event.info "Starting database migration..."
          :: Event.info "Detected SQLite database" :: tail)
  ∧ pgProgram = pgUserBlock ++ pgOrgBlock ++ pgTableBlock
  ∧ sqProgram = sqUserBlock ++ sqOrgBlock ++ sqTableBlock
  ∧ (Event.success "Migration completed successfully!"
        ∈ (migrate exec db_backend s).trace
      ↔ (migrate exec db_backend s).err = none)
  ∧ ((migrate exec db_backend s).err = none →
      (migrate exec db_backend s).trace.getLast?
        = some (Event.success "Migration completed successfully!")) := by
  by_cases hb : db_backend = "postgres"
  · subst hb
    rw [migrate_pg_def]
    obtain ⟨ext, htr, -, -⟩ := runPg_run exec pgProgram (pgInit s)
    refine ⟨?_, fun hne => absurd rfl hne, rfl, rfl, ?_, ?_⟩
    · intro _
      refine ⟨ext ++ [Event.success "Migration completed successfully!"], ?_⟩
      show (migrate_postgres exec (pgInit s)).trace ++ _ = _
      unfold migrate_postgres
      rw [htr, pgInit_trace]
      simp
    · constructor
      · intro _
        rfl
      · intro _
        exact List.mem_append_right _ (by decide)
    · intro _
      exact getLast_append_singleton _ _
  · rw [migrate_sq_def exec db_backend s hb]
    obtain ⟨ext, htr, -, -, -⟩ := runSq_run exec sqProgram (sqInit s) rfl (by decide)
    have htr2 : (migrate_sqlite exec (sqInit s)).trace = (sqInit s).trace ++ ext := by
      unfold migrate_sqlite
      exact htr
    cases hq : (migrate_sqlite exec (sqInit s)).err with
    | none =>
      simp only [hq]
      refine ⟨fun heq => absurd heq hb, ?_, rfl, rfl, ?_, ?_⟩
      · intro _
        refine ⟨ext ++ [Event.success "Migration completed successfully!"], ?_⟩
        rw [htr2, sqInit_trace]
        simp
      · constructor
        · intro _
          trivial
        · intro _
          exact List.mem_append_right _ (by decide)
      · intro _
        exact getLast_append_singleton _ _
    | some e0 =>
      simp only [hq]
      refine ⟨fun heq => absurd heq hb, ?_, rfl, rfl, ?_, ?_⟩
      · intro _
        refine ⟨ext, ?_⟩
        rw [htr2, sqInit_trace]
        simp
      · constructor
        · intro hmem
          exact absurd hmem (no_final_sq exec s)
        · intro h
          simp at h
      · intro h
        simp at h

/-- Witness for C7 at both concrete dialect configurations. -/
theorem orchestrator_order_witness :
    (∃ tail, (migrate dbExec "postgres" exampleSchema).trace
      = Event.connect :: Event.info "Starting database migration..."
        :: Event.info "Detected PostgreSQL database" :: tail)
  ∧ (∃ tail, (migrate dbExec "sqlite" exampleSchema).trace
      = Event.connect :: Event.info "Starting database migration..."
        :: Event.info "Detected SQLite database" :: tail) :=
  ⟨(orchestrator_order dbExec "postgres" exampleSchema).1 rfl,
   (orchestrator_order dbExec "sqlite" exampleSchema).2.1 (by decide)⟩

/-! ### Lemmas on `move_defs_to_end` -/

theorem filter_ne_of_no_key {α : Type} (k : String) (l : List (String × α))
    (h : k ∉ l.map Prod.fst) :
    l.filter (fun kv => kv.1 != k) = l := by
  induction l with
  | nil => rfl
  | cons p t ih =>
    simp only [List.map_cons, List.mem_cons] at h
    push_neg at h
    obtain ⟨h1, h2⟩ := h
    have hcond : (p.1 != k) = true := by
      simp [bne_iff_ne]
      exact fun he => h1 he.symm
    simp [List.filter_cons, hcond, ih h2]

theorem lookup_filter_ne_self {α : Type} (k : String) (l : List (String × α)) :
    (l.filter (fun kv => kv.1 != k)).lookup k = none := by
  induction l with
  | nil => rfl
  | cons p t ih =>
    by_cases hp : p.1 = k
    · have : (p.1 != k) = false := by simp [hp]
      simp [List.filter_cons, this, ih]
    · have : (p.1 != k) = true := by simpa [bne_iff_ne] using hp
      have hk : (k == p.1) = false := by
        simp only [beq_eq_false_iff_ne]
        exact fun he => hp he.symm
      obtain ⟨a, b⟩ := p
      simp only at hk
      simp [List.filter_cons, this, List.lookup_cons, hk, ih]

theorem lookup_filter_ne_other {α : Type} (k k' : String) (hk : k' ≠ k)
    (l : List (String × α)) :
    (l.filter (fun kv => kv.1 != k)).lookup k' = l.lookup k' := by
  induction l with
  | nil => rfl
  | cons p t ih =>
    obtain ⟨a, b⟩ := p
    by_cases hp : a = k
    · have hcond : (a != k) = false := by simp [hp]
      have hne : (k' == a) = false :=
        beq_eq_false_iff_ne.2 fun he => hk (he.trans hp)
      simp [List.filter_cons, hcond, List.lookup_cons, hne, ih]
    · have hcond : (a != k) = true := by simpa [bne_iff_ne] using hp
      by_cases hq : k' = a
      · subst hq
        simp [List.filter_cons, hcond, List.lookup_cons]
      · have hne : (k' == a) = false := beq_eq_false_iff_ne.2 hq
        simp [List.filter_cons, hcond, List.lookup_cons, hne, ih]

theorem lookup_append_cases {α : Type} (l1 l2 : List (String × α)) (k : String) :
    (l1 ++ l2).lookup k =
      (match l1.lookup k with
       | some v => some v
       | none => l2.lookup k) := by
  induction l1 with
  | nil => simp
  | cons p t ih =>
    obtain ⟨a, b⟩ := p
    by_cases hq : (k == a) = true
    · simp [List.lookup_cons, hq]
    · simp only [Bool.not_eq_true] at hq
      simp [List.lookup_cons, hq, ih]

theorem perm_move_defs {α : Type} (k : String) (v : α) (l : List (String × α))
    (hnd : (l.map Prod.fst).Nodup) (hlk : l.lookup k = some v) :
    l.Perm ((l.filter (fun kv => kv.1 != k)) ++ [(k, v)]) := by
  induction l with
  | nil => simp [List.lookup] at hlk
  | cons p t ih =>
    obtain ⟨a, b⟩ := p
    simp only [List.map_cons, List.nodup_cons] at hnd
    obtain ⟨hna, hnt⟩ := hnd
    by_cases ha : a = k
    · subst ha
      rw [List.lookup_cons] at hlk
      simp only [beq_self_eq_true] at hlk
      have hbv : b = v := by
        simpa using hlk
      subst hbv
      have hcond : (a != a) = false := by simp
      have hft : t.filter (fun kv => kv.1 != a) = t :=
        filter_ne_of_no_key a t hna
      simp only [List.filter_cons, hcond, cond_false, hft]
      exact (List.perm_append_singleton _ _).symm
    · rw [List.lookup_cons] at hlk
      have hne : (k == a) = false := beq_eq_false_iff_ne.2 fun he => ha he.symm
      rw [hne] at hlk
      have hcond : (a != k) = true := by simpa [bne_iff_ne] using ha
      simp only [List.filter_cons, hcond, cond_true]
      exact List.Perm.cons _ (ih hnt hlk)

/-- Claim C10: `move_defs_to_end` returns a dictionary with exactly the same
key-value pairs as its input (for any dict, i.e. any key-unique association
list), it is idempotent, it preserves every lookup, and it is the identity
when `"$defs"` is absent. -/
theorem move_defs_to_end_spec {α : Type} (schema : List (String × α))
    (hnd : (schema.map Prod.fst).Nodup) :
    (move_defs_to_end schema).Perm schema
  ∧ move_defs_to_end (move_defs_to_end schema) = move_defs_to_end schema
  ∧ (∀ k, (move_defs_to_end schema).lookup k = schema.lookup k)
  ∧ ("$defs" ∉ schema.map Prod.fst → move_defs_to_end schema = schema) := by
  have hq : ∀ (k : String),
      (move_defs_to_end schema).lookup k = schema.lookup k := by
    intro k
    unfold move_defs_to_end
    cases hl : schema.lookup "$defs" with
    | none => rfl
    | some v =>
      by_cases hk : k = "$defs"
      · subst hk
        rw [lookup_append_cases, lookup_filter_ne_self, hl]
        simp [List.lookup_cons]
      · rw [lookup_append_cases, lookup_filter_ne_other _ _ hk]
        cases hsk : schema.lookup k with
        | some w => rfl
        | none =>
          have hne : (k == "$defs") = false := beq_eq_false_iff_ne.2 hk
          simp [List.lookup_cons, hne]
  refine ⟨?_, ?_, hq, ?_⟩
  · unfold move_defs_to_end
    cases hl : schema.lookup "$defs" with
    | none => exact List.Perm.refl _
    | some v => exact (perm_move_defs _ v schema hnd hl).symm
  · have hl2 : (move_defs_to_end schema).lookup "$defs" = schema.lookup "$defs" :=
      hq "$defs"
    cases hl : schema.lookup "$defs" with
    | none =>
      have heq : move_defs_to_end schema = schema := by
        unfold move_defs_to_end
        rw [hl]
      rw [heq, heq]
    | some v =>
      have hm1 : move_defs_to_end schema
          = (schema.filter (fun kv => kv.1 != "$defs")) ++ [("$defs", v)] := by
        unfold move_defs_to_end
        rw [hl]
      rw [hm1]
      have hcomp : ((schema.filter (fun kv => kv.1 != "$defs"))
          ++ [("$defs", v)]).lookup "$defs" = some v := by
        rw [lookup_append_cases, lookup_filter_ne_self]
        simp [List.lookup_cons]
      have hm2 : move_defs_to_end ((schema.filter (fun kv => kv.1 != "$defs"))
            ++ [("$defs", v)])
          = (((schema.filter (fun kv => kv.1 != "$defs")) ++ [("$defs", v)]).filter
              (fun kv => kv.1 != "$defs")) ++ [("$defs", v)] := by
        unfold move_defs_to_end
        rw [hcomp]
      rw [hm2, List.filter_append]
      have hff : (schema.filter (fun kv => kv.1 != "$defs")).filter
          (fun kv => kv.1 != "$defs") = schema.filter (fun kv => kv.1 != "$defs") := by
        apply filter_ne_of_no_key
        intro hmem
        simp only [List.mem_map] at hmem
        obtain ⟨p, hp, hp1⟩ := hmem
        have := List.of_mem_filter hp
        rw [hp1] at this
        simp at this
      rw [hff]
      have hsing : ([(("$defs" : String), v)].filter (fun kv => kv.1 != "$defs")) = [] := by
        simp [List.filter_cons]
      rw [hsing, List.append_nil]
  · intro habs
    have : schema.lookup "$defs" = none := by
      cases hsk : schema.lookup "$defs" with
      | none => rfl
      | some w =>
        exfalso
        apply habs
        clear habs hnd hq
        induction schema with
        | nil => simp [List.lookup] at hsk
        | cons p t ih =>
          obtain ⟨a, b⟩ := p
          rw [List.lookup_cons] at hsk
          by_cases hb : ("$defs" == a) = true
          · have : a = "$defs" := by
              have := eq_of_beq hb
              exact this.symm
            simp [this]
          · simp only [Bool.not_eq_true] at hb
            rw [hb] at hsk
            simp only [List.map_cons, List.mem_cons]
            exact Or.inr (ih hsk)
    unfold move_defs_to_end
    rw [this]

/-- Witness for C10 at a concrete dictionary with a `"$defs"` entry in the
middle. -/
theorem move_defs_to_end_spec_witness :
    (move_defs_to_end exampleJsonSchema).Perm exampleJsonSchema
  ∧ move_defs_to_end (move_defs_to_end exampleJsonSchema)
      = move_defs_to_end exampleJsonSchema
  ∧ (∀ k, (move_defs_to_end exampleJsonSchema).lookup k
      = exampleJsonSchema.lookup k)
  ∧ ("$defs" ∉ exampleJsonSchema.map Prod.fst →
      move_defs_to_end exampleJsonSchema = exampleJsonSchema) :=
  move_defs_to_end_spec exampleJsonSchema (by decide)

/-! ### Auxiliary lemmas for idempotence -/

/-- A guarded column addition whose column is already present is a database
no-op. -/
theorem dbExec_guarded_present (s : DbSchema) (t : String) (col : ColumnDef)
    (h : ((s.columnsOf t).contains col.name) = true) :
    dbExec s (.alterAddColumn t true col) = .ok s := by
  unfold dbExec
  cases hg : s.getTable t with
  | none =>
    exfalso
    rw [DbSchema.columnsOf, hg] at h
    simp at h
  | some cols =>
    rw [DbSchema.columnsOf, hg] at h
    simp only [Option.getD_some] at h
    have hm : col.name ∈ cols := by simpa using h
    simp [hg, hm]

theorem ensureQuotaTables_idem (s : DbSchema) :
    ensureQuotaTables (ensureQuotaTables s) = ensureQuotaTables s := by
  obtain ⟨u, o, k, idx⟩ := s
  unfold ensureQuotaTables
  cases u <;> cases o <;> simp [ensureQuota_idem]

theorem ensureQuotaTables_ensureSshkey (s : DbSchema) :
    ensureQuotaTables (ensureSshkey s) = ensureSshkey (ensureQuotaTables s) := by
  obtain ⟨u, o, k, idx⟩ := s
  cases k <;> rfl

/-- The honest net effect of the Guarded migration is idempotent. -/
theorem pgEffect_idem (s : DbSchema) :
    ensureSshkey (ensureQuotaTables (ensureSshkey (ensureQuotaTables s)))
      = ensureSshkey (ensureQuotaTables s) := by
  rw [ensureQuotaTables_ensureSshkey, ensureSshkey_idem, ensureQuotaTables_idem]

/-- Re-ensuring the three indexes is a no-op on an index list that already
went through one ensuring pass. -/
theorem e3_idem (l : List String) :
    ensureCol (ensureCol (ensureCol
        (ensureCol (ensureCol (ensureCol l "sshkey_user_id") "sshkey_fingerprint")
          "sshkey_user_fingerprint")
        "sshkey_user_id") "sshkey_fingerprint") "sshkey_user_fingerprint"
      = ensureCol (ensureCol (ensureCol l "sshkey_user_id") "sshkey_fingerprint")
          "sshkey_user_fingerprint" := by
  obtain ⟨h1, h2, h3⟩ := idxNames_contains l
  rw [ensureCol_of_contains h1, ensureCol_of_contains h2, ensureCol_of_contains h3]

theorem migrate_sq_of_fail (exec : Exec) (b : String) (s : DbSchema) (e : String)
    (hb : b ≠ "postgres")
    (hq : (migrate_sqlite exec (sqInit s)).err = some e) :
    migrate exec b s =
      { schema := (migrate_sqlite exec (sqInit s)).schema,
        trace := (migrate_sqlite exec (sqInit s)).trace,
        err := some e } := by
  rw [migrate_sq_def exec b s hb, hq]

theorem migrate_sq_of_ok (exec : Exec) (b : String) (s : DbSchema)
    (hb : b ≠ "postgres")
    (hq : (migrate_sqlite exec (sqInit s)).err = none) :
    migrate exec b s =
      { schema := (migrate_sqlite exec (sqInit s)).schema,
        trace := (migrate_sqlite exec (sqInit s)).trace
          ++ [.success "Migration completed successfully!"],
        err := none } := by
  rw [migrate_sq_def exec b s hb, hq]

/-- Claim C1: the full migration is idempotent.  For every starting schema
and either backend configuration, running it twice yields the same final
schema (and the same outcome) as running it once; on the second run, under
the Unguarded strategy, no ALTER TABLE is issued for a column that is in the
introspected existing-column set, and under the Guarded strategy every issued
column addition is guarded and, when its column is already present, is a
database no-op — so the second run performs no destructive or
duplicate-erroring operation. -/
theorem migrate_idempotent (db_backend : String) (s : DbSchema) :
    (runTwice db_backend s).schema = (runOnce db_backend s).schema
  ∧ (runTwice db_backend s).err = (runOnce db_backend s).err
  ∧ (db_backend ≠ "postgres" →
      ∀ e ∈ (runTwice db_backend s).trace, ∀ t g col,
        e = Event.sql (Stmt.alterAddColumn t g col) →
        ((runOnce db_backend s).schema.columnsOf t).contains col.name = false)
  ∧ (db_backend = "postgres" →
      (runTwice db_backend s).err = none
      ∧ ∀ e ∈ (runTwice db_backend s).trace, ∀ t g col,
          e = Event.sql (Stmt.alterAddColumn t g col) →
          g = true
          ∧ (((runOnce db_backend s).schema.columnsOf t).contains col.name = true →
            dbExec (runOnce db_backend s).schema (Stmt.alterAddColumn t g col)
              = Except.ok (runOnce db_backend s).schema)) := by
  unfold runTwice runOnce
  by_cases hb : db_backend = "postgres"
  case pos =>
    subst hb
    have h1 : (migrate dbExec "postgres" s).schema
        = ensureSshkey (ensureQuotaTables s) := by
      rw [migrate_pg_def]
      exact migrate_postgres_schema (pgInit s)
    have h2 : (migrate dbExec "postgres" (ensureSshkey (ensureQuotaTables s))).schema
        = ensureSshkey (ensureQuotaTables s) := by
      rw [migrate_pg_def]
      show (migrate_postgres dbExec
        (pgInit (ensureSshkey (ensureQuotaTables s)))).schema = _
      rw [migrate_postgres_schema]
      exact pgEffect_idem s
    refine ⟨?_, ?_, fun hne => absurd rfl hne, ?_⟩
    · rw [h1]
      exact h2
    · simp only [migrate_pg_def]
    · intro _
      constructor
      · simp only [migrate_pg_def]
      · intro e he t g col heq
        rw [migrate_pg_def] at he
        rcases List.mem_append.1 he with he | he
        · obtain ⟨ext, htr, hev, -⟩ := runPg_run dbExec pgProgram
            (pgInit ((migrate dbExec "postgres" s).schema))
          unfold migrate_postgres at he
          rw [htr] at he
          rcases List.mem_append.1 he with he | he
          · rw [pgInit_trace, heq] at he
            simp at he
          · obtain ⟨step, hstep, hse⟩ := hev _ he
            have hall := List.all_eq_true.mp
              (show pgProgram.all pgStepGuardedAlter = true by decide) step hstep
            cases step with
            | info m =>
              rw [heq] at hse
              simp [pgStepEvent] at hse
            | tryDdl stmt ok w =>
              simp only [pgStepEvent] at hse
              rcases hse with hse | hse | ⟨e2, hse⟩
              · rw [heq] at hse
                injection hse with hstmt
                subst hstmt
                simp only [pgStepGuardedAlter] at hall
                subst hall
                exact ⟨rfl, fun hcol => dbExec_guarded_present _ _ _ hcol⟩
              · rw [heq] at hse
                simp at hse
              · rw [heq] at hse
                simp at hse
        · simp only [List.mem_singleton] at he
          rw [heq] at he
          simp at he
  case neg =>
    obtain ⟨u, o, k, idx⟩ := s
    cases u with
    | none =>
      have hq1 : migrate_sqlite dbExec (sqInit ⟨none, o, k, idx⟩)
          = { schema := ⟨none, o, k, idx⟩,
              existing := [],
              trace := [.connect, .info "Starting database migration...",
                        .info "Detected SQLite database",
                        .info "Checking User table schema...",
                        .sql (.pragmaTableInfo "user"),
                        .info "Adding private_quota_bytes to User...",
                        .sql sqUserPrivateQuota],
              err := some "no such table" } :=
        sqProgram_noUser (sqInit ⟨none, o, k, idx⟩) rfl rfl
      have hr1 : migrate dbExec db_backend ⟨none, o, k, idx⟩
          = { schema := ⟨none, o, k, idx⟩,
              trace := [.connect, .info "Starting database migration...",
                        .info "Detected SQLite database",
                        .info "Checking User table schema...",
                        .sql (.pragmaTableInfo "user"),
                        .info "Adding private_quota_bytes to User...",
                        .sql sqUserPrivateQuota],
              err := some "no such table" } := by
        rw [migrate_sq_of_fail dbExec db_backend _ "no such table" hb (by rw [hq1]),
            hq1]
      refine ⟨?_, ?_, ?_, fun heq => absurd heq hb⟩
      · simp only [hr1]
      · simp only [hr1]
      · intro _ e he t g col heq
        simp only [hr1] at he ⊢
        rw [heq] at he
        simp [sqUserPrivateQuota] at he
        obtain ⟨ht, -⟩ := he
        subst ht
        rfl
    | some ucols =>
      cases o with
      | none =>
        have hq1 : migrate_sqlite dbExec (sqInit ⟨some ucols, none, k, idx⟩)
            = { schema := ⟨some (ensureQuota ucols), none, k, idx⟩,
                existing := [],
                trace := (sqInit ⟨some ucols, none, k, idx⟩).trace
                  ++ userBlockTrace ucols ++
                  [.info "Checking Organization table schema...",
                   .sql (.pragmaTableInfo "organization"),
                   .info "Adding private_quota_bytes to Organization...",
                   .sql sqOrgPrivateQuota],
                err := some "no such table" } :=
          sqProgram_noOrg (sqInit ⟨some ucols, none, k, idx⟩) ucols rfl rfl rfl
        have hq2 : migrate_sqlite dbExec (sqInit ⟨some (ensureQuota ucols), none, k, idx⟩)
            = { schema := ⟨some (ensureQuota (ensureQuota ucols)), none, k, idx⟩,
                existing := [],
                trace := (sqInit ⟨some (ensureQuota ucols), none, k, idx⟩).trace
                  ++ userBlockTrace (ensureQuota ucols) ++
                  [.info "Checking Organization table schema...",
                   .sql (.pragmaTableInfo "organization"),
                   .info "Adding private_quota_bytes to Organization...",
                   .sql sqOrgPrivateQuota],
                err := some "no such table" } :=
          sqProgram_noOrg (sqInit ⟨some (ensureQuota ucols), none, k, idx⟩)
            (ensureQuota ucols) rfl rfl rfl
        have hr1 : migrate dbExec db_backend ⟨some ucols, none, k, idx⟩
            = { schema := ⟨some (ensureQuota ucols), none, k, idx⟩,
                trace := (sqInit ⟨some ucols, none, k, idx⟩).trace
                  ++ userBlockTrace ucols ++
                  [.info "Checking Organization table schema...",
                   .sql (.pragmaTableInfo "organization"),
                   .info "Adding private_quota_bytes to Organization...",
                   .sql sqOrgPrivateQuota],
                err := some "no such table" } := by
          rw [migrate_sq_of_fail dbExec db_backend _ "no such table" hb (by rw [hq1]),
              hq1]
        have hr2 : migrate dbExec db_backend ⟨some (ensureQuota ucols), none, k, idx⟩
            = { schema := ⟨some (ensureQuota ucols), none, k, idx⟩,
                trace := (sqInit ⟨some (ensureQuota ucols), none, k, idx⟩).trace
                  ++ userBlockTrace (ensureQuota ucols) ++
                  [.info "Checking Organization table schema...",
                   .sql (.pragmaTableInfo "organization"),
                   .info "Adding private_quota_bytes to Organization...",
                   .sql sqOrgPrivateQuota],
                err := some "no such table" } := by
          rw [migrate_sq_of_fail dbExec db_backend _ "no such table" hb (by rw [hq2]),
              hq2, ensureQuota_idem]
        refine ⟨?_, ?_, ?_, fun heq => absurd heq hb⟩
        · simp only [hr1, hr2]
        · simp only [hr1, hr2]
        · intro _ e he t g col heq
          simp only [hr1, hr2] at he ⊢
          obtain ⟨c1, c2, c3, c4⟩ := ensureQuota_contains ucols
          rw [userBlockTrace_complete c1 c2 c3 c4, sqInit_trace, heq] at he
          simp [sqOrgPrivateQuota] at he
          obtain ⟨ht, -⟩ := he
          subst ht
          rfl
      | some ocols =>
        cases k with
        | none =>
          have hq1 : migrate_sqlite dbExec (sqInit ⟨some ucols, some ocols, none, idx⟩)
              = { schema := ⟨some (ensureQuota ucols), some (ensureQuota ocols),
                    some sshkeyColNames,
                    ensureCol (ensureCol (ensureCol idx "sshkey_user_id")
                      "sshkey_fingerprint") "sshkey_user_fingerprint"⟩,
                  existing := ocols,
                  trace := (sqInit ⟨some ucols, some ocols, none, idx⟩).trace
                    ++ userBlockTrace ucols ++ orgBlockTrace ocols ++ tableBlockTrace,
                  err := none } :=
            sqProgram_full (sqInit ⟨some ucols, some ocols, none, idx⟩) ucols ocols
              rfl rfl rfl
          have hq2 : migrate_sqlite dbExec
              (sqInit ⟨some (ensureQuota ucols), some (ensureQuota ocols),
                some sshkeyColNames,
                ensureCol (ensureCol (ensureCol idx "sshkey_user_id")
                  "sshkey_fingerprint") "sshkey_user_fingerprint"⟩)
              = { schema := ⟨some (ensureQuota (ensureQuota ucols)),
                    some (ensureQuota (ensureQuota ocols)),
                    some sshkeyColNames,
                    ensureCol (ensureCol (ensureCol
                      (ensureCol (ensureCol (ensureCol idx "sshkey_user_id")
                        "sshkey_fingerprint") "sshkey_user_fingerprint")
                      "sshkey_user_id") "sshkey_fingerprint") "sshkey_user_fingerprint"⟩,
                  existing := ensureQuota ocols,
                  trace := (sqInit ⟨some (ensureQuota ucols), some (ensureQuota ocols),
                      some sshkeyColNames,
                      ensureCol (ensureCol (ensureCol idx "sshkey_user_id")
                        "sshkey_fingerprint") "sshkey_user_fingerprint"⟩).trace
                    ++ userBlockTrace (ensureQuota ucols)
                    ++ orgBlockTrace (ensureQuota ocols) ++ tableBlockTrace,
                  err := none } :=
            sqProgram_full _ (ensureQuota ucols) (ensureQuota ocols) rfl rfl rfl
          have hr1 : migrate dbExec db_backend ⟨some ucols, some ocols, none, idx⟩
              = { schema := ⟨some (ensureQuota ucols), some (ensureQuota ocols),
                    some sshkeyColNames,
                    ensureCol (ensureCol (ensureCol idx "sshkey_user_id")
                      "sshkey_fingerprint") "sshkey_user_fingerprint"⟩,
                  trace := ((sqInit ⟨some ucols, some ocols, none, idx⟩).trace
                    ++ userBlockTrace ucols ++ orgBlockTrace ocols ++ tableBlockTrace)
                    ++ [.success "Migration completed successfully!"],
                  err := none } := by
            rw [migrate_sq_of_ok dbExec db_backend _ hb (by rw [hq1]), hq1]
          have hr2 : migrate dbExec db_backend
              ⟨some (ensureQuota ucols), some (ensureQuota ocols),
                some sshkeyColNames,
                ensureCol (ensureCol (ensureCol idx "sshkey_user_id")
                  "sshkey_fingerprint") "sshkey_user_fingerprint"⟩
              = { schema := ⟨some (ensureQuota ucols), some (ensureQuota ocols),
                    some sshkeyColNames,
                    ensureCol (ensureCol (ensureCol idx "sshkey_user_id")
                      "sshkey_fingerprint") "sshkey_user_fingerprint"⟩,
                  trace := ((sqInit ⟨some (ensureQuota ucols), some (ensureQuota ocols),
                      some sshkeyColNames,
                      ensureCol (ensureCol (ensureCol idx "sshkey_user_id")
                        "sshkey_fingerprint") "sshkey_user_fingerprint"⟩).trace
                    ++ userBlockTrace (ensureQuota ucols)
                    ++ orgBlockTrace (ensureQuota ocols) ++ tableBlockTrace)
                    ++ [.success "Migration completed successfully!"],
                  err := none } := by
            rw [migrate_sq_of_ok dbExec db_backend _ hb (by rw [hq2]), hq2,
                ensureQuota_idem, ensureQuota_idem, e3_idem]
          refine ⟨?_, ?_, ?_, fun heq => absurd heq hb⟩
          · simp only [hr1, hr2]
          · simp only [hr1, hr2]
          · intro _ e he t g col heq
            simp only [hr1, hr2] at he
            obtain ⟨cu1, cu2, cu3, cu4⟩ := ensureQuota_contains ucols
            obtain ⟨co1, co2, co3, co4⟩ := ensureQuota_contains ocols
            rw [userBlockTrace_complete cu1 cu2 cu3 cu4,
                orgBlockTrace_complete co1 co2 co3 co4, sqInit_trace, heq] at he
            simp [tableBlockTrace, sqCreateSshkey, idxUserId, idxFingerprint,
                  idxUserFingerprint] at he
        | some kc =>
          have hq1 : migrate_sqlite dbExec (sqInit ⟨some ucols, some ocols, some kc, idx⟩)
              = { schema := ⟨some (ensureQuota ucols), some (ensureQuota ocols),
                    some kc,
                    ensureCol (ensureCol (ensureCol idx "sshkey_user_id")
                      "sshkey_fingerprint") "sshkey_user_fingerprint"⟩,
                  existing := ocols,
                  trace := (sqInit ⟨some ucols, some ocols, some kc, idx⟩).trace
                    ++ userBlockTrace ucols ++ orgBlockTrace ocols ++ tableBlockTrace,
                  err := none } :=
            sqProgram_full (sqInit ⟨some ucols, some ocols, some kc, idx⟩) ucols ocols
              rfl rfl rfl
          have hq2 : migrate_sqlite dbExec
              (sqInit ⟨some (ensureQuota ucols), some (ensureQuota ocols), some kc,
                ensureCol (ensureCol (ensureCol idx "sshkey_user_id")
                  "sshkey_fingerprint") "sshkey_user_fingerprint"⟩)
              = { schema := ⟨some (ensureQuota (ensureQuota ucols)),
                    some (ensureQuota (ensureQuota ocols)),
                    some kc,
                    ensureCol (ensureCol (ensureCol
                      (ensureCol (ensureCol (ensureCol idx "sshkey_user_id")
                        "sshkey_fingerprint") "sshkey_user_fingerprint")
                      "sshkey_user_id") "sshkey_fingerprint") "sshkey_user_fingerprint"⟩,
                  existing := ensureQuota ocols,
                  trace := (sqInit ⟨some (ensureQuota ucols), some (ensureQuota ocols),
                      some kc,
                      ensureCol (ensureCol (ensureCol idx "sshkey_user_id")
                        "sshkey_fingerprint") "sshkey_user_fingerprint"⟩).trace
                    ++ userBlockTrace (ensureQuota ucols)
                    ++ orgBlockTrace (ensureQuota ocols) ++ tableBlockTrace,
                  err := none } :=
            sqProgram_full _ (ensureQuota ucols) (ensureQuota ocols) rfl rfl rfl
          have hr1 : migrate dbExec db_backend ⟨some ucols, some ocols, some kc, idx⟩
              = { schema := ⟨some (ensureQuota ucols), some (ensureQuota ocols),
                    some kc,
                    ensureCol (ensureCol (ensureCol idx "sshkey_user_id")
                      "sshkey_fingerprint") "sshkey_user_fingerprint"⟩,
                  trace := ((sqInit ⟨some ucols, some ocols, some kc, idx⟩).trace
                    ++ userBlockTrace ucols ++ orgBlockTrace ocols ++ tableBlockTrace)
                    ++ [.success "Migration completed successfully!"],
                  err := none } := by
            rw [migrate_sq_of_ok dbExec db_backend _ hb (by rw [hq1]), hq1]
          have hr2 : migrate dbExec db_backend
              ⟨some (ensureQuota ucols), some (ensureQuota ocols), some kc,
                ensureCol (ensureCol (ensureCol idx "sshkey_user_id")
                  "sshkey_fingerprint") "sshkey_user_fingerprint"⟩
              = { schema := ⟨some (ensureQuota ucols), some (ensureQuota ocols),
                    some kc,
                    ensureCol (ensureCol (ensureCol idx "sshkey_user_id")
                      "sshkey_fingerprint") "sshkey_user_fingerprint"⟩,
                  trace := ((sqInit ⟨some (ensureQuota ucols), some (ensureQuota ocols),
                      some kc,
                      ensureCol (ensureCol (ensureCol idx "sshkey_user_id")
                        "sshkey_fingerprint") "sshkey_user_fingerprint"⟩).trace
                    ++ userBlockTrace (ensureQuota ucols)
                    ++ orgBlockTrace (ensureQuota ocols) ++ tableBlockTrace)
                    ++ [.success "Migration completed successfully!"],
                  err := none } := by
            rw [migrate_sq_of_ok dbExec db_backend _ hb (by rw [hq2]), hq2,
                ensureQuota_idem, ensureQuota_idem, e3_idem]
          refine ⟨?_, ?_, ?_, fun heq => absurd heq hb⟩
          · simp only [hr1, hr2]
          · simp only [hr1, hr2]
          · intro _ e he t g col heq
            simp only [hr1, hr2] at he
            obtain ⟨cu1, cu2, cu3, cu4⟩ := ensureQuota_contains ucols
            obtain ⟨co1, co2, co3, co4⟩ := ensureQuota_contains ocols
            rw [userBlockTrace_complete cu1 cu2 cu3 cu4,
                orgBlockTrace_complete co1 co2 co3 co4, sqInit_trace, heq] at he
            simp [tableBlockTrace, sqCreateSshkey, idxUserId, idxFingerprint,
                  idxUserFingerprint] at he

/-- Witness for C1 at the SQLite configuration on a concrete schema. -/
theorem migrate_idempotent_witness :
    (runTwice "sqlite" exampleSchema).schema = (runOnce "sqlite" exampleSchema).schema
  ∧ (runTwice "sqlite" exampleSchema).err = (runOnce "sqlite" exampleSchema).err
  ∧ ∀ e ∈ (runTwice "sqlite" exampleSchema).trace, ∀ t g col,
      e = Event.sql (Stmt.alterAddColumn t g col) →
      ((runOnce "sqlite" exampleSchema).schema.columnsOf t).contains col.name = false :=
  ⟨(migrate_idempotent "sqlite" exampleSchema).1,
   (migrate_idempotent "sqlite" exampleSchema).2.1,
   (migrate_idempotent "sqlite" exampleSchema).2.2.1 (by decide)⟩

end KohakuHub
